import Mathlib

/-!
# Budget ledger and allocation engine: a shallow embedding of `src/script.js`

This file embeds the budgeting application's in-memory data model and its
mutating operations (the first, authoritative variant of the script,
lines 1-1430) and proves properties of the "ready to assign" pool, the
per-month category allocations, transactions, debts and goals.

Modelling conventions:
* JavaScript numbers are modelled as exact rationals (`Rat`).
* Calendar months are modelled by their linear index (`Nat := Nat`,
  e.g. year*12+month); `addMonths(d, i)` on a month key is `+ i` and
  `differenceInCalendarMonths` is the difference of the indices.
* A calendar date `yyyy-MM-dd` is the pair of its month index and its
  day-of-month; the JS timestamp order on parsed dates is the
  lexicographic order on that pair, and `format(parseISO(date),'yyyy-MM')`
  is the `.ym` projection.
* JS objects keyed by strings (the `budgets` month map, the per-month
  `categories` allocation map, the persistent `categories` registry) are
  association lists in insertion order; reading takes the first binding
  and writing replaces the first binding or appends, which agrees with
  JS object semantics (whose keys are unique).
* `uuidv4()` is modelled by a fresh-id counter `nextId` threaded through
  the state.
* `new Date()` (the wall clock) is passed explicitly as a `today : Date`
  argument to the operations that consult it.
* The lazy creation performed by `getMonthData` is `ensureList` at every
  point where the source calls it; pure reads use `getMDList`, which
  returns the empty month for an absent key exactly as the freshly
  created month would be.
-/

/-- Transaction type: the `'income'` / `'expense'` strings of the source. -/
inductive TxType where
  | income : TxType
  | expense : TxType
deriving DecidableEq, Repr

/-- A calendar date `yyyy-MM-dd`: month index plus day of month. -/
structure Date where
  ym : Nat
  day : Nat
deriving DecidableEq, Repr

/-- JS `Date` comparison (`<=` on timestamps) for parsed ISO dates. -/
def dateLeB (a b : Date) : Bool :=
  a.ym < b.ym || (a.ym == b.ym && a.day ≤ b.day)

/-- `startOfMonth` of date-fns: same month, first day. -/
def startOfMonth (d : Date) : Date := ⟨d.ym, 1⟩

/-- `differenceInCalendarMonths` of date-fns: difference of month indices. -/
def differenceInCalendarMonths (a b : Date) : Int :=
  (a.ym : Int) - (b.ym : Int)

/-- A transaction record, as pushed by the source's transaction handlers. -/
structure Transaction where
  id : Nat
  date : Date
  amount : Rat
  description : String
  type : TxType
  categoryId : Option Nat
deriving DecidableEq, Repr

/-- A per-month allocation record `{ assigned: number }`. -/
structure Allocation where
  assigned : Rat
deriving DecidableEq, Repr

/-- One month's data: `{ categories: {...}, transactions: [...] }`. -/
structure MonthData where
  categories : List (Nat × Allocation)
  transactions : List Transaction
deriving DecidableEq, Repr

/-- The empty month created lazily by `getMonthData`. -/
def emptyMD : MonthData := ⟨[], []⟩

/-- A persistent category record. -/
structure Category where
  id : Nat
  name : String
  parentCategory : String
  createdDate : Date
  isActive : Bool
deriving DecidableEq, Repr

/-- A recorded debt payment `{date, amount}`. -/
structure Payment where
  date : Date
  amount : Rat
deriving DecidableEq, Repr

/-- A debt record. -/
structure Debt where
  id : Nat
  name : String
  originalBalance : Rat
  currentBalance : Rat
  interestRate : Rat
  minPayment : Rat
  paymentHistory : List Payment
deriving DecidableEq, Repr

/-- A savings goal record. -/
structure Goal where
  id : Nat
  name : String
  description : String
  dueDate : Date
  totalAmount : Rat
  monthlyContribution : Rat
deriving DecidableEq, Repr

/-- The whole in-memory aggregate state (the module-level globals
`budgets`, `debtList`, `goals`, `categories`, `currentMonth`,
`readyToAssign`, plus the fresh-id counter modelling `uuidv4`). -/
structure State where
  budgets : List (Nat × MonthData)
  debtList : List Debt
  goals : List Goal
  categories : List (Nat × Category)
  currentMonth : Nat
  readyToAssign : Rat
  nextId : Nat
deriving DecidableEq, Repr

/-- The freshly initialized document (`initialData` of the source). -/
def initState (m0 : Nat) : State :=
  ⟨[], [], [], [], m0, 0, 0⟩

/-! ## Association-list helpers for the JS object maps -/

/-- Read a month's entry from the `budgets` object. -/
def findMonth (b : List (Nat × MonthData)) (m : Nat) : Option MonthData :=
  (b.find? (fun p => p.1 == m)).map (·.2)

/-- Read a month, defaulting to the empty month an absent key would be
lazily initialized to. -/
def getMDList (b : List (Nat × MonthData)) (m : Nat) : MonthData :=
  (findMonth b m).getD emptyMD

/-- Write a month's entry: replace the first binding or append. -/
def setMonth : List (Nat × MonthData) → Nat → MonthData → List (Nat × MonthData)
  | [], m, md => [(m, md)]
  | (k, v) :: rest, m, md =>
      if k == m then (m, md) :: rest else (k, v) :: setMonth rest m md

/-- `getMonthData`'s lazy creation: register an empty month if absent. -/
def ensureList (b : List (Nat × MonthData)) (m : Nat) : List (Nat × MonthData) :=
  if (b.any (fun p => p.1 == m)) then b else b ++ [(m, emptyMD)]

/-- Read an allocation record from a month's `categories` object. -/
def allocLookup (cs : List (Nat × Allocation)) (c : Nat) : Option Allocation :=
  (cs.find? (fun p => p.1 == c)).map (·.2)

/-- `monthData.categories[c]?.assigned || 0`. -/
def assignedOf (cs : List (Nat × Allocation)) (c : Nat) : Rat :=
  ((allocLookup cs c).map (·.assigned)).getD 0

/-- Write an allocation record: replace the first binding or append. -/
def allocSet : List (Nat × Allocation) → Nat → Allocation → List (Nat × Allocation)
  | [], c, a => [(c, a)]
  | (k, v) :: rest, c, a =>
      if k == c then (c, a) :: rest else (k, v) :: allocSet rest c a

/-- The budgeted amount of a category in a month, as the source reads it. -/
def budgeted (s : State) (m : Nat) (c : Nat) : Rat :=
  assignedOf (getMDList s.budgets m).categories c

/-- The transactions of a month, as the source reads them. -/
def transactionsOf (s : State) (m : Nat) : List Transaction :=
  (getMDList s.budgets m).transactions

/-! ## Derived figures (`calculateActivity`, `calculateCategoryAvailable`) -/

/-- `calculateActivity(month, categoryId)`: sum of the amounts of the
month's transactions with this category id and type `'expense'`. -/
def calculateActivity (s : State) (m : Nat) (c : Nat) : Rat :=
  (((getMDList s.budgets m).transactions.filter
      (fun t => t.categoryId == some c && t.type == TxType.expense)).map
    (·.amount)).sum

/-- `calculateCategoryAvailable(month, categoryId)`:
`assigned - activity`, both read from the month. -/
def calculateCategoryAvailable (s : State) (m : Nat) (c : Nat) : Rat :=
  assignedOf (getMDList s.budgets m).categories c - calculateActivity s m c

/-- The spec's wording of activity: the sum of amounts of expense
transactions in that month with that categoryId. -/
def activitySpec (s : State) (m : Nat) (c : Nat) : Rat :=
  (((getMDList s.budgets m).transactions.filter
      (fun t => t.type == TxType.expense && t.categoryId == some c)).map
    (·.amount)).sum

/-! ## Mutating operations (variant 1 event handlers, after parsing) -/

/-- `isDuplicateTransaction(transaction)` (src/script.js:787-794): checks
the transactions of the *currently displayed* month (`currentMonth`) for
an identical `(date, amount, description)` triple. -/
def isDuplicateTransaction (b : List (Nat × MonthData)) (currentMonth : Nat)
    (tx : Transaction) : Bool :=
  (getMDList b currentMonth).transactions.any
    (fun t => t.date == tx.date && t.amount == tx.amount && t.description == tx.description)

/-- `window.updateCategoryAssigned` (src/script.js:384-405): set the
current month's allocation for a category, guarded by the pool. -/
def updateCategoryAssigned (s : State) (categoryId : Nat) (value : Rat) : State :=
  let b1 := ensureList s.budgets s.currentMonth
  let md := getMDList b1 s.currentMonth
  let newValue := value
  let oldValue := assignedOf md.categories categoryId
  let difference := newValue - oldValue
  if s.readyToAssign < difference then
    { s with budgets := b1 }
  else
    { s with
      budgets := setMonth b1 s.currentMonth
        { md with categories := allocSet md.categories categoryId ⟨newValue⟩ },
      readyToAssign := s.readyToAssign - difference }

/-- `updateReadyToAssign(transaction)` (src/script.js:850-854). -/
def updateReadyToAssign (pool : Rat) (tx : Transaction) : Rat :=
  if tx.type == TxType.income then pool + tx.amount else pool

/-- The `recordTransactionBtn` click handler (src/script.js:796-848),
after input parsing.  `confirmDuplicate` models the outcome of the
duplicate-confirmation dialog (`addDuplicateAnywayBtn` vs
`skipDuplicateBtn`); it is consulted only when the duplicate gate fires. -/
def addTransactionOp (s : State) (date : Date) (amount : Rat) (description : String)
    (ty : TxType) (categoryId : Option Nat) (confirmDuplicate : Bool) : State :=
  if amount ≤ 0 ∨ description = "" then s
  else if ty = TxType.expense ∧ categoryId = none then s
  else
    let month := date.ym
    let b1 := ensureList s.budgets month
    let b2 := ensureList b1 s.currentMonth
    let tx : Transaction := ⟨s.nextId, date, amount, description, ty, categoryId⟩
    if isDuplicateTransaction b2 s.currentMonth tx ∧ ¬ confirmDuplicate then
      { s with budgets := b2 }
    else
      let md := getMDList b2 month
      { s with
        budgets := setMonth b2 month { md with transactions := md.transactions ++ [tx] },
        readyToAssign := updateReadyToAssign s.readyToAssign tx,
        nextId := s.nextId + 1 }

/-- The first month (in `budgets` iteration order) whose transaction list
contains the id, as scanned by the edit handler's `for ... in budgets`. -/
def findTxMonth (b : List (Nat × MonthData)) (txId : Nat) : Option Nat :=
  (b.find? (fun p => p.2.transactions.any (fun t => t.id == txId))).map (·.1)

/-- A placeholder transaction for total reads; proofs only use it below
an in-bounds index. -/
def defaultTx : Transaction := ⟨0, ⟨0, 1⟩, 0, "", TxType.expense, none⟩

/-- The `saveEditedTransactionBtn` click handler (src/script.js:897-955),
after input parsing. -/
def editTransactionOp (s : State) (txId : Nat) (newDate : Date) (newAmount : Rat)
    (newType : TxType) (newDescription : String) (newCategoryId : Option Nat) : State :=
  if newAmount ≤ 0 ∨ newDescription = "" then s
  else if newType = TxType.expense ∧ newCategoryId = none then s
  else
    match findTxMonth s.budgets txId with
    | none => s
    | some oldMonth =>
        let md := getMDList s.budgets oldMonth
        let idx := md.transactions.findIdx (fun t => t.id == txId)
        let oldTx := (md.transactions.get? idx).getD defaultTx
        let updated : Transaction :=
          { oldTx with
            date := newDate, amount := newAmount, type := newType,
            description := newDescription, categoryId := newCategoryId }
        let newMonth := newDate.ym
        let budgets1 :=
          if newMonth ≠ oldMonth then
            let b1 := setMonth s.budgets oldMonth
              { md with transactions := md.transactions.eraseIdx idx }
            let b2 := ensureList b1 newMonth
            let md2 := getMDList b2 newMonth
            setMonth b2 newMonth { md2 with transactions := md2.transactions ++ [updated] }
          else
            setMonth s.budgets oldMonth
              { md with transactions := md.transactions.set idx updated }
        let pool1 := s.readyToAssign
          - (if oldTx.type == TxType.income then oldTx.amount else 0)
          + (if newType == TxType.income then newAmount else 0)
        { s with budgets := budgets1, readyToAssign := pool1 }

/-- `window.handleDeleteTransaction` (src/script.js:1128-1142) with the
confirmation dialog accepted.  An absent month key makes the source throw
before any mutation, which leaves the state unchanged, as does an absent
transaction id. -/
def deleteTransactionOp (s : State) (txId : Nat) (month : Nat) : State :=
  match findMonth s.budgets month with
  | none => s
  | some md =>
      let idx := md.transactions.findIdx (fun t => t.id == txId)
      if idx < md.transactions.length then
        let t := (md.transactions.get? idx).getD defaultTx
        { s with
          budgets := setMonth s.budgets month
            { md with transactions := md.transactions.eraseIdx idx },
          readyToAssign :=
            if t.type == TxType.income then s.readyToAssign - t.amount else s.readyToAssign }
      else s

/-- `debtList.find(d => d.id === id)`. -/
def debtLookup (ds : List Debt) (i : Nat) : Option Debt :=
  ds.find? (fun d => d.id == i)

/-- In-place mutation of the debt found by id: replace the first debt
holding the id. -/
def debtUpdate : List Debt → Nat → Debt → List Debt
  | [], _, _ => []
  | d :: rest, i, d1 => if d.id == i then d1 :: rest else d :: debtUpdate rest i d1

/-- The `recordPaymentConfirmBtn` click handler (src/script.js:1074-1118),
after input parsing, with the selected debt id passed explicitly. -/
def recordPayment (s : State) (today : Date) (debtId : Nat) (amount : Rat) : State :=
  if amount ≤ 0 then s
  else if s.readyToAssign < amount then s
  else
    match debtLookup s.debtList debtId with
    | none => s
    | some d =>
        let newBal := if d.currentBalance - amount < 0 then 0 else d.currentBalance - amount
        let d1 : Debt :=
          { d with currentBalance := newBal,
                   paymentHistory := d.paymentHistory ++ [⟨today, amount⟩] }
        let debts1 := debtUpdate s.debtList debtId d1
        let found := s.categories.find? (fun p => p.2.name == "Debt Payments" && p.2.isActive)
        let categoryId := match found with
          | some p => p.1
          | none => s.nextId
        let categories1 := match found with
          | some _ => s.categories
          | none => s.categories ++
              [(s.nextId, ⟨s.nextId, "Debt Payments", "Fixed Expenses", today, true⟩)]
        let txId := match found with
          | some _ => s.nextId
          | none => s.nextId + 1
        let nextId1 := match found with
          | some _ => s.nextId + 1
          | none => s.nextId + 2
        let b1 := ensureList s.budgets s.currentMonth
        let md := getMDList b1 s.currentMonth
        let tx : Transaction :=
          ⟨txId, today, amount, "Payment to " ++ d.name, TxType.expense, some categoryId⟩
        { s with
          debtList := debts1,
          categories := categories1,
          budgets := setMonth b1 s.currentMonth
            { md with transactions := md.transactions ++ [tx] },
          readyToAssign := s.readyToAssign - amount,
          nextId := nextId1 }

/-- One iteration of the goal-funding loop (src/script.js:663-671):
ensure the month exists, then set the goal category's `assigned` to the
monthly contribution. -/
def goalAssign (categoryId : Nat) (mc : Rat) (b : List (Nat × MonthData)) (m : Nat) :
    List (Nat × MonthData) :=
  let b1 := ensureList b m
  let md := getMDList b1 m
  setMonth b1 m { md with categories := allocSet md.categories categoryId ⟨mc⟩ }

/-- The `saveGoalBtn` click handler (src/script.js:626-676), after input
parsing.  Note: the per-month `assigned` is set directly, without a pool
check and without decrementing `readyToAssign`. -/
def saveGoal (s : State) (today : Date) (name description : String)
    (dueDate : Date) (totalAmount : Rat) : State :=
  if name = "" ∨ totalAmount ≤ 0 then s
  else
    let startDate := startOfMonth today
    if dateLeB dueDate startDate then s
    else
      let monthsBetween : Nat := (differenceInCalendarMonths dueDate startDate + 1).toNat
      let monthlyContribution : Rat := totalAmount / (monthsBetween : Rat)
      let newGoal : Goal := ⟨s.nextId, name, description, dueDate, totalAmount, monthlyContribution⟩
      let categoryId := s.nextId + 1
      let cat : Category := ⟨categoryId, name, "Financial Goals", today, true⟩
      let budgets1 := (List.range monthsBetween).foldl
        (fun b i => goalAssign categoryId monthlyContribution b (startDate.ym + i))
        s.budgets
      { s with
        goals := s.goals ++ [newGoal],
        categories := s.categories ++ [(categoryId, cat)],
        budgets := budgets1,
        nextId := s.nextId + 2 }

/-- Replace the first registry binding of the id by its deactivated copy. -/
def deactivateList : List (Nat × Category) → Nat → List (Nat × Category)
  | [], _ => []
  | (k, c) :: rest, cid =>
      if k == cid then (k, { c with isActive := false }) :: rest
      else (k, c) :: deactivateList rest cid

/-- `window.handleDeleteCategory` (src/script.js:408-419) with the
confirmation accepted: a soft delete that only clears `isActive`. -/
def deactivateCategory (s : State) (categoryId : Nat) : State :=
  match s.categories.find? (fun p => p.1 == categoryId) with
  | none => s
  | some _ => { s with categories := deactivateList s.categories categoryId }

/-- The `addDebtConfirmBtn` click handler (src/script.js:1044-1061),
after input parsing. -/
def addDebtOp (s : State) (name : String)
    (originalBalance currentBalance interestRate minPayment : Rat) : State :=
  if name = "" ∨ originalBalance ≤ 0 ∨ currentBalance < 0 then s
  else
    { s with
      debtList := s.debtList ++
        [⟨s.nextId, name, originalBalance, currentBalance, interestRate, minPayment, []⟩],
      nextId := s.nextId + 1 }

/-- One iteration of the copy-forward loop: create a zero allocation for
an active category lacking one, counting it; otherwise do nothing. -/
def copyStep (acc : List (Nat × Allocation) × Nat) (p : Nat × Category) :
    List (Nat × Allocation) × Nat :=
  if p.2.isActive && (allocLookup acc.1 p.1).isNone then
    (acc.1 ++ [(p.1, ⟨0⟩)], acc.2 + 1)
  else acc

/-- The `copyCategoriesBtn` click handler (src/script.js:1156-1178):
for every active category without an allocation entry in the next month,
create one with `assigned = 0`; also returns the reported count. -/
def copyCategoriesForwardOp (s : State) : State × Nat :=
  let nextMonth := s.currentMonth + 1
  let b1 := ensureList s.budgets s.currentMonth
  let b2 := ensureList b1 nextMonth
  let md := getMDList b2 nextMonth
  let acc := s.categories.foldl copyStep (md.categories, 0)
  ({ s with budgets := setMonth b2 nextMonth { md with categories := acc.1 } }, acc.2)

/-! ## The pool invariant and reachability -/

/-- The income contribution of a transaction towards the pool. -/
def incomeVal (t : Transaction) : Rat :=
  if t.type == TxType.income then t.amount else 0

/-- Sum of income amounts of a transaction list. -/
def incomeSum (ts : List Transaction) : Rat :=
  (ts.map incomeVal).sum

/-- Sum of income amounts across all months of the document. -/
def totalIncome (b : List (Nat × MonthData)) : Rat :=
  (b.map (fun p => incomeSum p.2.transactions)).sum

/-- Sum of the `assigned` amounts of one month's allocation map. -/
def allocSum (cs : List (Nat × Allocation)) : Rat :=
  (cs.map (fun p => p.2.assigned)).sum

/-- Sum of all budgeted allocations across all months. -/
def totalAlloc (b : List (Nat × MonthData)) : Rat :=
  (b.map (fun p => allocSum p.2.categories)).sum

/-- Sum of one debt's recorded payments. -/
def paySum (d : Debt) : Rat :=
  (d.paymentHistory.map (·.amount)).sum

/-- Sum of all recorded debt payments across all debts. -/
def totalPayments (ds : List Debt) : Rat :=
  (ds.map paySum).sum

/-- The §3 pool invariant.  In this variant category deletion is a soft
delete that refunds nothing, so the refunded-budget term of the spec's
formula is identically zero and is omitted. -/
def PoolInv (s : State) : Prop :=
  s.readyToAssign = totalIncome s.budgets - totalAlloc s.budgets - totalPayments s.debtList

instance (s : State) : Decidable (PoolInv s) := by
  unfold PoolInv; infer_instance

/-- One user-visible mutating operation of the app, as listed in the
pool-invariant claim, plus debt creation and month navigation. -/
inductive Step : State → State → Prop
  | alloc (s : State) (c : Nat) (v : Rat) : Step s (updateCategoryAssigned s c v)
  | addTx (s : State) (date : Date) (amount : Rat) (description : String)
      (ty : TxType) (categoryId : Option Nat) (confirm : Bool) :
      Step s (addTransactionOp s date amount description ty categoryId confirm)
  | editTx (s : State) (txId : Nat) (newDate : Date) (newAmount : Rat)
      (newType : TxType) (newDescription : String) (newCategoryId : Option Nat) :
      Step s (editTransactionOp s txId newDate newAmount newType newDescription newCategoryId)
  | delTx (s : State) (txId : Nat) (month : Nat) :
      Step s (deleteTransactionOp s txId month)
  | payment (s : State) (today : Date) (debtId : Nat) (amount : Rat) :
      Step s (recordPayment s today debtId amount)
  | goal (s : State) (today : Date) (name description : String)
      (dueDate : Date) (totalAmount : Rat) :
      Step s (saveGoal s today name description dueDate totalAmount)
  | deact (s : State) (categoryId : Nat) : Step s (deactivateCategory s categoryId)
  | addDebt (s : State) (name : String) (ob cb ir mp : Rat) :
      Step s (addDebtOp s name ob cb ir mp)
  | nav (s : State) (m : Nat) : Step s { s with currentMonth := m }

/-- Like `Step`, but without the goal-creation operation. -/
inductive CoreStep : State → State → Prop
  | alloc (s : State) (c : Nat) (v : Rat) : CoreStep s (updateCategoryAssigned s c v)
  | addTx (s : State) (date : Date) (amount : Rat) (description : String)
      (ty : TxType) (categoryId : Option Nat) (confirm : Bool) :
      CoreStep s (addTransactionOp s date amount description ty categoryId confirm)
  | editTx (s : State) (txId : Nat) (newDate : Date) (newAmount : Rat)
      (newType : TxType) (newDescription : String) (newCategoryId : Option Nat) :
      CoreStep s (editTransactionOp s txId newDate newAmount newType newDescription newCategoryId)
  | delTx (s : State) (txId : Nat) (month : Nat) :
      CoreStep s (deleteTransactionOp s txId month)
  | payment (s : State) (today : Date) (debtId : Nat) (amount : Rat) :
      CoreStep s (recordPayment s today debtId amount)
  | deact (s : State) (categoryId : Nat) : CoreStep s (deactivateCategory s categoryId)
  | addDebt (s : State) (name : String) (ob cb ir mp : Rat) :
      CoreStep s (addDebtOp s name ob cb ir mp)
  | nav (s : State) (m : Nat) : CoreStep s { s with currentMonth := m }

/-- States of the open document reachable from a fresh document. -/
def Reachable (m0 : Nat) (s : State) : Prop :=
  Relation.ReflTransGen Step (initState m0) s

/-- States reachable from a fresh document without creating goals. -/
def ReachableCore (m0 : Nat) (s : State) : Prop :=
  Relation.ReflTransGen CoreStep (initState m0) s

/-! ## Allocation sequences (for the `setAllocation` claim) -/

/-- Run a sequence of `updateCategoryAssigned` calls. -/
def runAllocs (s : State) (calls : List (Nat × Rat)) : State :=
  calls.foldl (fun st c => updateCategoryAssigned st c.1 c.2) s

/-- The delta `newBudgeted - oldBudgeted` a call would apply to the pool
in a given state. -/
def allocDelta (s : State) (c : Nat) (v : Rat) : Rat :=
  v - budgeted s s.currentMonth c

/-- The sum of the deltas of the calls of a sequence that the pool guard
accepts, each evaluated in the state it runs in. -/
def appliedDeltaSum : List (Nat × Rat) → State → Rat
  | [], _ => 0
  | c :: rest, s =>
      (if s.readyToAssign < allocDelta s c.1 c.2 then 0 else allocDelta s c.1 c.2)
        + appliedDeltaSum rest (updateCategoryAssigned s c.1 c.2)

/-! ## Lemmas about the map helpers -/

theorem findMonth_cons (k : Nat) (v : MonthData) (rest : List (Nat × MonthData)) (m : Nat) :
    findMonth ((k, v) :: rest) m = if k = m then some v else findMonth rest m := by
  by_cases h : k = m
  · simp [findMonth, List.find?_cons_of_pos, h]
  · have hb : ((k, v).1 == m) = false := by simp [h]
    simp [findMonth, List.find?_cons_of_neg, h, hb]

theorem getMDList_cons (k : Nat) (v : MonthData) (rest : List (Nat × MonthData)) (m : Nat) :
    getMDList ((k, v) :: rest) m = if k = m then v else getMDList rest m := by
  by_cases h : k = m <;> simp [getMDList, findMonth_cons, h]

theorem setMonth_cons (k : Nat) (v : MonthData) (rest : List (Nat × MonthData))
    (m : Nat) (md : MonthData) :
    setMonth ((k, v) :: rest) m md =
      if k = m then (m, md) :: rest else (k, v) :: setMonth rest m md := by
  by_cases h : k = m <;> simp [setMonth, h]

theorem getMDList_nil (m : Nat) : getMDList [] m = emptyMD := rfl

theorem getMDList_setMonth_self (b : List (Nat × MonthData)) (m : Nat) (md : MonthData) :
    getMDList (setMonth b m md) m = md := by
  induction b with
  | nil => simp [setMonth, getMDList_cons]
  | cons p rest ih =>
      obtain ⟨k, v⟩ := p
      by_cases h : k = m
      · simp [setMonth_cons, h, getMDList_cons]
      · simp [setMonth_cons, h, getMDList_cons, ih]

theorem getMDList_setMonth_ne (b : List (Nat × MonthData)) (m m' : Nat) (md : MonthData)
    (h : m' ≠ m) : getMDList (setMonth b m md) m' = getMDList b m' := by
  induction b with
  | nil => simp [setMonth, getMDList_cons, Ne.symm h, getMDList_nil]
  | cons p rest ih =>
      obtain ⟨k, v⟩ := p
      by_cases hk : k = m
      · subst hk
        simp [setMonth_cons, getMDList_cons, Ne.symm h]
      · by_cases hk' : k = m'
        · simp [setMonth_cons, hk, getMDList_cons, hk', h]
        · simp [setMonth_cons, hk, getMDList_cons, hk', ih]

theorem any_eq_false_of_findMonth_none (b : List (Nat × MonthData)) (m : Nat) :
    (b.any (fun p => p.1 == m)) = false → findMonth b m = none := by
  induction b with
  | nil => intro _; rfl
  | cons p rest ih =>
      obtain ⟨k, v⟩ := p
      intro h
      simp only [List.any_cons, Bool.or_eq_false_iff] at h
      have hk : k ≠ m := by simpa using h.1
      simp [findMonth_cons, hk, ih h.2]

theorem getMDList_ensure (b : List (Nat × MonthData)) (m k : Nat) :
    getMDList (ensureList b m) k = getMDList b k := by
  unfold ensureList
  by_cases h : b.any (fun p => p.1 == m) = true
  · simp [h]
  · simp only [Bool.not_eq_true] at h
    simp only [h, Bool.false_eq_true, if_false]
    induction b with
    | nil =>
        by_cases hk : m = k <;>
          simp [getMDList_cons, getMDList_nil, hk, emptyMD]
    | cons p rest ih =>
        obtain ⟨q, w⟩ := p
        simp only [List.any_cons, Bool.or_eq_false_iff] at h
        by_cases hq : q = k
        · simp [getMDList_cons, hq]
        · simp [getMDList_cons, hq, ih h.2]

theorem ensureList_of_found (b : List (Nat × MonthData)) (m : Nat)
    (h : (b.any (fun p => p.1 == m)) = true) : ensureList b m = b := by
  simp [ensureList, h]

/-! ## Lemmas about allocation maps -/

theorem allocLookup_cons (k : Nat) (v : Allocation) (rest : List (Nat × Allocation)) (c : Nat) :
    allocLookup ((k, v) :: rest) c = if k = c then some v else allocLookup rest c := by
  by_cases h : k = c
  · simp [allocLookup, List.find?_cons_of_pos, h]
  · have hb : ((k, v).1 == c) = false := by simp [h]
    simp [allocLookup, List.find?_cons_of_neg, h, hb]

theorem assignedOf_cons (k : Nat) (v : Allocation) (rest : List (Nat × Allocation)) (c : Nat) :
    assignedOf ((k, v) :: rest) c = if k = c then v.assigned else assignedOf rest c := by
  by_cases h : k = c <;> simp [assignedOf, allocLookup_cons, h]

theorem allocSet_cons (k : Nat) (v : Allocation) (rest : List (Nat × Allocation))
    (c : Nat) (a : Allocation) :
    allocSet ((k, v) :: rest) c a =
      if k = c then (c, a) :: rest else (k, v) :: allocSet rest c a := by
  by_cases h : k = c <;> simp [allocSet, h]

theorem assignedOf_allocSet_self (cs : List (Nat × Allocation)) (c : Nat) (a : Allocation) :
    assignedOf (allocSet cs c a) c = a.assigned := by
  induction cs with
  | nil => simp [allocSet, assignedOf_cons]
  | cons p rest ih =>
      obtain ⟨k, v⟩ := p
      by_cases h : k = c
      · simp [allocSet_cons, h, assignedOf_cons]
      · simp [allocSet_cons, h, assignedOf_cons, ih]

theorem assignedOf_allocSet_ne (cs : List (Nat × Allocation)) (c c' : Nat) (a : Allocation)
    (h : c' ≠ c) : assignedOf (allocSet cs c a) c' = assignedOf cs c' := by
  induction cs with
  | nil => simp [allocSet, assignedOf_cons, Ne.symm h, assignedOf, allocLookup]
  | cons p rest ih =>
      obtain ⟨k, v⟩ := p
      by_cases hk : k = c
      · subst hk
        simp [allocSet_cons, assignedOf_cons, Ne.symm h]
      · by_cases hk' : k = c'
        · simp [allocSet_cons, hk, assignedOf_cons, hk', h]
        · simp [allocSet_cons, hk, assignedOf_cons, hk', ih]

theorem allocLookup_allocSet_self (cs : List (Nat × Allocation)) (c : Nat) (a : Allocation) :
    allocLookup (allocSet cs c a) c = some a := by
  induction cs with
  | nil => simp [allocSet, allocLookup_cons]
  | cons p rest ih =>
      obtain ⟨k, v⟩ := p
      by_cases h : k = c
      · simp [allocSet_cons, h, allocLookup_cons]
      · simp [allocSet_cons, h, allocLookup_cons, ih]

theorem allocLookup_allocSet_ne (cs : List (Nat × Allocation)) (c c' : Nat) (a : Allocation)
    (h : c' ≠ c) : allocLookup (allocSet cs c a) c' = allocLookup cs c' := by
  induction cs with
  | nil => simp [allocSet, allocLookup_cons, Ne.symm h, allocLookup]
  | cons p rest ih =>
      obtain ⟨k, v⟩ := p
      by_cases hk : k = c
      · subst hk
        simp [allocSet_cons, allocLookup_cons, Ne.symm h]
      · by_cases hk' : k = c'
        · simp [allocSet_cons, hk, allocLookup_cons, hk', h]
        · simp [allocSet_cons, hk, allocLookup_cons, hk', ih]

theorem allocLookup_append (cs₁ cs₂ : List (Nat × Allocation)) (c : Nat) :
    allocLookup (cs₁ ++ cs₂) c =
      (allocLookup cs₁ c).orElse (fun _ => allocLookup cs₂ c) := by
  induction cs₁ with
  | nil => simp [allocLookup]
  | cons p rest ih =>
      obtain ⟨k, v⟩ := p
      by_cases h : k = c
      · simp [allocLookup_cons, h]
      · simp [allocLookup_cons, h, ih]

/-! ## Lemmas about the sums -/

theorem incomeSum_nil : incomeSum [] = 0 := rfl

theorem incomeSum_append (ts : List Transaction) (t : Transaction) :
    incomeSum (ts ++ [t]) = incomeSum ts + incomeVal t := by
  simp [incomeSum]

theorem incomeSum_eraseIdx (ts : List Transaction) (i : Nat) (h : i < ts.length) :
    incomeSum (ts.eraseIdx i) = incomeSum ts - incomeVal ((ts.get? i).getD defaultTx) := by
  induction ts generalizing i with
  | nil => simp at h
  | cons t rest ih =>
      cases i with
      | zero => simp [incomeSum, List.eraseIdx]
      | succ j =>
          simp only [List.length_cons, Nat.succ_lt_succ_iff] at h
          simp only [List.eraseIdx, incomeSum, List.map_cons, List.sum_cons, List.get?]
          have := ih j h
          simp only [incomeSum] at this
          rw [this]; ring

theorem incomeSum_set (ts : List Transaction) (i : Nat) (t' : Transaction)
    (h : i < ts.length) :
    incomeSum (ts.set i t') =
      incomeSum ts - incomeVal ((ts.get? i).getD defaultTx) + incomeVal t' := by
  induction ts generalizing i with
  | nil => simp at h
  | cons t rest ih =>
      cases i with
      | zero => simp [incomeSum, List.set]; ring
      | succ j =>
          simp only [List.length_cons, Nat.succ_lt_succ_iff] at h
          simp only [List.set, incomeSum, List.map_cons, List.sum_cons, List.get?]
          have := ih j h
          simp only [incomeSum] at this
          rw [this]; ring

theorem totalIncome_nil : totalIncome [] = 0 := rfl

theorem totalIncome_cons (k : Nat) (v : MonthData) (rest : List (Nat × MonthData)) :
    totalIncome ((k, v) :: rest) = incomeSum v.transactions + totalIncome rest := by
  simp [totalIncome]

theorem totalIncome_setMonth (b : List (Nat × MonthData)) (m : Nat) (md : MonthData) :
    totalIncome (setMonth b m md) =
      totalIncome b - incomeSum (getMDList b m).transactions + incomeSum md.transactions := by
  induction b with
  | nil =>
      simp [setMonth, totalIncome_cons, totalIncome_nil, getMDList_nil, emptyMD, incomeSum]
  | cons p rest ih =>
      obtain ⟨k, v⟩ := p
      by_cases h : k = m
      · subst h
        simp [setMonth_cons, totalIncome_cons, getMDList_cons]
        ring
      · simp [setMonth_cons, h, totalIncome_cons, getMDList_cons, ih]
        ring

theorem totalIncome_ensure (b : List (Nat × MonthData)) (m : Nat) :
    totalIncome (ensureList b m) = totalIncome b := by
  unfold ensureList
  by_cases h : b.any (fun p => p.1 == m) = true
  · simp [h]
  · simp only [Bool.not_eq_true] at h
    simp [h, totalIncome, emptyMD, incomeSum]

theorem allocSum_allocSet (cs : List (Nat × Allocation)) (c : Nat) (a : Allocation) :
    allocSum (allocSet cs c a) = allocSum cs - assignedOf cs c + a.assigned := by
  induction cs with
  | nil =>
      simp [allocSet, allocSum, assignedOf, allocLookup]
  | cons p rest ih =>
      obtain ⟨k, v⟩ := p
      by_cases h : k = c
      · subst h
        simp [allocSet_cons, allocSum, assignedOf_cons]
        ring
      · simp only [allocSet_cons, h, if_false, allocSum, List.map_cons, List.sum_cons]
        rw [assignedOf_cons]
        simp only [h, if_false]
        simp only [allocSum] at ih
        rw [ih]; ring

theorem totalAlloc_nil : totalAlloc [] = 0 := rfl

theorem totalAlloc_cons (k : Nat) (v : MonthData) (rest : List (Nat × MonthData)) :
    totalAlloc ((k, v) :: rest) = allocSum v.categories + totalAlloc rest := by
  simp [totalAlloc]

theorem totalAlloc_setMonth (b : List (Nat × MonthData)) (m : Nat) (md : MonthData) :
    totalAlloc (setMonth b m md) =
      totalAlloc b - allocSum (getMDList b m).categories + allocSum md.categories := by
  induction b with
  | nil =>
      simp [setMonth, totalAlloc_cons, totalAlloc_nil, getMDList_nil, emptyMD, allocSum]
  | cons p rest ih =>
      obtain ⟨k, v⟩ := p
      by_cases h : k = m
      · subst h
        simp [setMonth_cons, totalAlloc_cons, getMDList_cons]
        ring
      · simp [setMonth_cons, h, totalAlloc_cons, getMDList_cons, ih]
        ring

theorem totalAlloc_ensure (b : List (Nat × MonthData)) (m : Nat) :
    totalAlloc (ensureList b m) = totalAlloc b := by
  unfold ensureList
  by_cases h : b.any (fun p => p.1 == m) = true
  · simp [h]
  · simp only [Bool.not_eq_true] at h
    simp [h, totalAlloc, emptyMD, allocSum]

theorem totalPayments_nil : totalPayments [] = 0 := rfl

theorem totalPayments_debtUpdate (ds : List Debt) (i : Nat) (d d1 : Debt)
    (h : debtLookup ds i = some d) :
    totalPayments (debtUpdate ds i d1) = totalPayments ds - paySum d + paySum d1 := by
  induction ds with
  | nil => simp [debtLookup] at h
  | cons e rest ih =>
      by_cases he : e.id = i
      · have : debtLookup (e :: rest) i = some e := by
          simp [debtLookup, List.find?_cons_of_pos, he]
        rw [this] at h
        cases h
        simp [debtUpdate, he, totalPayments]
        ring
      · have hb : (e.id == i) = false := by simp [he]
        have : debtLookup (e :: rest) i = debtLookup rest i := by
          simp [debtLookup, List.find?_cons_of_neg, hb]
        rw [this] at h
        simp only [debtUpdate, hb, Bool.false_eq_true, if_false, totalPayments,
          List.map_cons, List.sum_cons]
        have := ih h
        simp only [totalPayments] at this
        rw [this]; ring

theorem totalPayments_append (ds : List Debt) (d : Debt) :
    totalPayments (ds ++ [d]) = totalPayments ds + paySum d := by
  simp [totalPayments]

theorem paySum_hist_append (d : Debt) (ps : List Payment) (p : Payment) :
    (((d.paymentHistory = ps) : Prop)) →
      paySum { d with paymentHistory := ps ++ [p] } = paySum d + p.amount := by
  intro h
  simp [paySum, h]

/-! ## Unique month keys (JS object keys are unique) -/

/-- The `budgets` object of the source has unique month keys. -/
def WFMonths (s : State) : Prop := (s.budgets.map Prod.fst).Nodup

instance (s : State) : Decidable (WFMonths s) := by
  unfold WFMonths; infer_instance

theorem keys_setMonth (b : List (Nat × MonthData)) (m : Nat) (md : MonthData) :
    (setMonth b m md).map Prod.fst =
      if m ∈ b.map Prod.fst then b.map Prod.fst else b.map Prod.fst ++ [m] := by
  induction b with
  | nil => simp [setMonth]
  | cons p rest ih =>
      obtain ⟨k, v⟩ := p
      by_cases h : k = m
      · subst h
        simp [setMonth_cons]
      · simp only [setMonth_cons, h, if_false, List.map_cons, List.mem_cons, ih]
        by_cases hm : m ∈ rest.map Prod.fst
        · simp [hm, Ne.symm h]
        · simp [hm, Ne.symm h]

theorem nodup_keys_setMonth (b : List (Nat × MonthData)) (m : Nat) (md : MonthData)
    (h : (b.map Prod.fst).Nodup) : ((setMonth b m md).map Prod.fst).Nodup := by
  rw [keys_setMonth]
  by_cases hm : m ∈ b.map Prod.fst
  · simpa [hm] using h
  · simp [hm, List.nodup_append, h]

theorem not_mem_keys_of_any_false (b : List (Nat × MonthData)) (m : Nat)
    (h : (b.any (fun p => p.1 == m)) = false) : m ∉ b.map Prod.fst := by
  intro hmem
  rcases List.mem_map.mp hmem with ⟨p, hp, hp1⟩
  have := List.any_eq_false.mp h p hp
  simp [hp1] at this

theorem nodup_keys_ensure (b : List (Nat × MonthData)) (m : Nat)
    (h : (b.map Prod.fst).Nodup) : ((ensureList b m).map Prod.fst).Nodup := by
  unfold ensureList
  by_cases ha : b.any (fun p => p.1 == m) = true
  · simpa [ha] using h
  · simp only [Bool.not_eq_true] at ha
    have := not_mem_keys_of_any_false b m ha
    simp [ha, List.nodup_append, h, this]

theorem findMonth_eq_of_mem_nodup (b : List (Nat × MonthData)) (m : Nat) (md : MonthData)
    (hn : (b.map Prod.fst).Nodup) (hmem : (m, md) ∈ b) : findMonth b m = some md := by
  induction b with
  | nil => simp at hmem
  | cons p rest ih =>
      obtain ⟨k, v⟩ := p
      simp only [List.map_cons, List.nodup_cons] at hn
      rcases List.mem_cons.mp hmem with heq | htail
      · cases heq
        simp [findMonth_cons]
      · have hk : k ≠ m := by
          intro hkm
          subst hkm
          exact hn.1 (List.mem_map.mpr ⟨(k, md), htail, rfl⟩)
        simp [findMonth_cons, hk, ih hn.2 htail]

theorem findTxMonth_any (b : List (Nat × MonthData)) (txId : Nat) (m : Nat)
    (hn : (b.map Prod.fst).Nodup) (h : findTxMonth b txId = some m) :
    ((getMDList b m).transactions.any (fun t => t.id == txId)) = true := by
  unfold findTxMonth at h
  cases hf : b.find? (fun p => p.2.transactions.any (fun t => t.id == txId)) with
  | none => rw [hf] at h; simp at h
  | some p =>
      rw [hf] at h
      simp only [Option.map] at h
      have hp := List.find?_some hf
      have hmem := List.mem_of_find?_eq_some hf
      obtain ⟨k, v⟩ := p
      cases h
      have : findMonth b k = some v := findMonth_eq_of_mem_nodup b k v hn hmem
      simp only [getMDList, this, Option.getD_some]
      exact hp

theorem findIdx_lt_length_of_any {α : Type} (l : List α) (p : α → Bool)
    (h : l.any p = true) : l.findIdx p < l.length := by
  induction l with
  | nil => simp at h
  | cons x rest ih =>
      by_cases hx : p x = true
      · simp [List.findIdx_cons, hx]
      · simp only [Bool.not_eq_true] at hx
        simp only [List.any_cons, hx, Bool.false_or] at h
        simp only [List.findIdx_cons, hx, cond_false, List.length_cons]
        exact Nat.succ_lt_succ (ih h)

theorem get?_findIdx_of_any {α : Type} (l : List α) (p : α → Bool)
    (h : l.any p = true) :
    ∃ x, l.get? (l.findIdx p) = some x ∧ p x = true := by
  induction l with
  | nil => simp at h
  | cons y rest ih =>
      by_cases hy : p y = true
      · exact ⟨y, by simp [List.findIdx_cons, hy], hy⟩
      · simp only [Bool.not_eq_true] at hy
        simp only [List.any_cons, hy, Bool.false_or] at h
        rcases ih h with ⟨x, hx, hpx⟩
        exact ⟨x, by simpa [List.findIdx_cons, hy] using hx, hpx⟩

/-! ## Pool-invariant preservation, operation by operation -/

/-- The combined inductive invariant: the pool equality plus unique
month keys. -/
def StateInv (s : State) : Prop := PoolInv s ∧ WFMonths s

theorem pool_sub_incomeVal (pool : Rat) (t : Transaction) :
    (if t.type == TxType.income then pool - t.amount else pool) = pool - incomeVal t := by
  unfold incomeVal
  by_cases h : t.type == TxType.income <;> simp [h]

theorem inv_init (m0 : Nat) : StateInv (initState m0) := by
  constructor
  · simp [PoolInv, initState, totalIncome, totalAlloc, totalPayments]
  · simp [WFMonths, initState]

theorem updateReadyToAssign_eq (pool : Rat) (tx : Transaction) :
    updateReadyToAssign pool tx = pool + incomeVal tx := by
  unfold updateReadyToAssign incomeVal
  by_cases h : tx.type == TxType.income <;> simp [h]

theorem inv_alloc (s : State) (c : Nat) (v : Rat) (h : StateInv s) :
    StateInv (updateCategoryAssigned s c v) := by
  obtain ⟨hp, hw⟩ := h
  unfold updateCategoryAssigned
  by_cases hg : s.readyToAssign <
      v - assignedOf (getMDList (ensureList s.budgets s.currentMonth) s.currentMonth).categories c
  · simp only [hg, if_true]
    refine ⟨?_, ?_⟩
    · unfold PoolInv at hp ⊢
      simpa [totalIncome_ensure, totalAlloc_ensure] using hp
    · exact nodup_keys_ensure _ _ hw
  · simp only [hg, if_false]
    refine ⟨?_, ?_⟩
    · unfold PoolInv at hp ⊢
      simp only [totalIncome_setMonth, totalAlloc_setMonth, totalIncome_ensure,
        totalAlloc_ensure, allocSum_allocSet, getMDList_ensure]
      rw [hp]
      ring
    · exact nodup_keys_setMonth _ _ _ (nodup_keys_ensure _ _ hw)

theorem inv_addTx (s : State) (date : Date) (amount : Rat) (description : String)
    (ty : TxType) (categoryId : Option Nat) (confirm : Bool) (h : StateInv s) :
    StateInv (addTransactionOp s date amount description ty categoryId confirm) := by
  obtain ⟨hp, hw⟩ := h
  unfold addTransactionOp
  by_cases h1 : amount ≤ 0 ∨ description = ""
  · simp only [h1, if_true]; exact ⟨hp, hw⟩
  · simp only [h1, if_false]
    by_cases h2 : ty = TxType.expense ∧ categoryId = none
    · simp only [h2, if_true]; exact ⟨hp, hw⟩
    · simp only [h2, if_false]
      by_cases h3 : isDuplicateTransaction
          (ensureList (ensureList s.budgets date.ym) s.currentMonth) s.currentMonth
          ⟨s.nextId, date, amount, description, ty, categoryId⟩ ∧ ¬ confirm
      · simp only [h3, if_true]
        refine ⟨?_, ?_⟩
        · unfold PoolInv at hp ⊢
          simpa [totalIncome_ensure, totalAlloc_ensure] using hp
        · exact nodup_keys_ensure _ _ (nodup_keys_ensure _ _ hw)
      · simp only [h3, if_false]
        refine ⟨?_, ?_⟩
        · unfold PoolInv at hp ⊢
          simp only [totalIncome_setMonth, totalAlloc_setMonth, totalIncome_ensure,
            totalAlloc_ensure, getMDList_ensure, incomeSum_append, updateReadyToAssign_eq]
          rw [hp]
          ring
        · exact nodup_keys_setMonth _ _ _ (nodup_keys_ensure _ _ (nodup_keys_ensure _ _ hw))

theorem inv_delTx (s : State) (txId : Nat) (month : Nat) (h : StateInv s) :
    StateInv (deleteTransactionOp s txId month) := by
  obtain ⟨hp, hw⟩ := h
  unfold deleteTransactionOp
  cases hf : findMonth s.budgets month with
  | none => exact ⟨hp, hw⟩
  | some md =>
      simp only []
      by_cases hidx : (md.transactions.findIdx (fun t => t.id == txId)) < md.transactions.length
      · simp only [hidx, if_true]
        refine ⟨?_, ?_⟩
        · unfold PoolInv at hp ⊢
          have hmd : getMDList s.budgets month = md := by
            simp [getMDList, hf]
          simp only [totalIncome_setMonth, totalAlloc_setMonth, hmd,
            incomeSum_eraseIdx md.transactions _ hidx, pool_sub_incomeVal, hp]
          ring
        · exact nodup_keys_setMonth _ _ _ hw
      · simp only [hidx, if_false]
        exact ⟨hp, hw⟩

theorem inv_deact (s : State) (categoryId : Nat) (h : StateInv s) :
    StateInv (deactivateCategory s categoryId) := by
  obtain ⟨hp, hw⟩ := h
  unfold deactivateCategory
  cases s.categories.find? (fun p => p.1 == categoryId) with
  | none => exact ⟨hp, hw⟩
  | some _ => exact ⟨hp, hw⟩

theorem inv_addDebt (s : State) (name : String) (ob cb ir mp : Rat) (h : StateInv s) :
    StateInv (addDebtOp s name ob cb ir mp) := by
  obtain ⟨hp, hw⟩ := h
  unfold addDebtOp
  by_cases h1 : name = "" ∨ ob ≤ 0 ∨ cb < 0
  · simp only [h1, if_true]; exact ⟨hp, hw⟩
  · simp only [h1, if_false]
    refine ⟨?_, hw⟩
    unfold PoolInv at hp ⊢
    simp [totalPayments_append, paySum, hp]

theorem inv_nav (s : State) (m : Nat) (h : StateInv s) :
    StateInv { s with currentMonth := m } := by
  exact h

theorem inv_payment (s : State) (today : Date) (debtId : Nat) (amount : Rat) (h : StateInv s) :
    StateInv (recordPayment s today debtId amount) := by
  obtain ⟨hp, hw⟩ := h
  unfold recordPayment
  by_cases h1 : amount ≤ 0
  · simp only [h1, if_true]; exact ⟨hp, hw⟩
  · simp only [h1, if_false]
    by_cases h2 : s.readyToAssign < amount
    · simp only [h2, if_true]; exact ⟨hp, hw⟩
    · simp only [h2, if_false]
      cases hf : debtLookup s.debtList debtId with
      | none => exact ⟨hp, hw⟩
      | some d =>
          simp only []
          refine ⟨?_, ?_⟩
          · unfold PoolInv at hp ⊢
            simp only [totalIncome_setMonth, totalAlloc_setMonth, totalIncome_ensure,
              totalAlloc_ensure, getMDList_ensure, incomeSum_append]
            rw [totalPayments_debtUpdate s.debtList debtId d _ hf]
            rw [hp]
            simp [paySum, incomeVal]
            ring
          · exact nodup_keys_setMonth _ _ _ (nodup_keys_ensure _ _ hw)

theorem inv_editTx (s : State) (txId : Nat) (newDate : Date) (newAmount : Rat)
    (newType : TxType) (newDescription : String) (newCategoryId : Option Nat)
    (h : StateInv s) :
    StateInv (editTransactionOp s txId newDate newAmount newType newDescription newCategoryId) := by
  obtain ⟨hp, hw⟩ := h
  unfold editTransactionOp
  by_cases h1 : newAmount ≤ 0 ∨ newDescription = ""
  · simp only [h1, if_true]; exact ⟨hp, hw⟩
  · simp only [h1, if_false]
    by_cases h2 : newType = TxType.expense ∧ newCategoryId = none
    · simp only [h2, if_true]; exact ⟨hp, hw⟩
    · simp only [h2, if_false]
      cases hf : findTxMonth s.budgets txId with
      | none => exact ⟨hp, hw⟩
      | some oldMonth =>
          simp only []
          have hany := findTxMonth_any s.budgets txId oldMonth hw hf
          have hidx := findIdx_lt_length_of_any _ _ hany
          set md := getMDList s.budgets oldMonth with hmd
          set idx := md.transactions.findIdx (fun t => t.id == txId) with hidxdef
          set oldTx := (md.transactions.get? idx).getD defaultTx with holdtx
          set updated : Transaction :=
            { oldTx with
              date := newDate, amount := newAmount, type := newType,
              description := newDescription, categoryId := newCategoryId } with hupd
          have hinc : incomeVal updated = if newType == TxType.income then newAmount else 0 := by
            simp [incomeVal, hupd]
          by_cases hm : newDate.ym ≠ oldMonth
      
      
      
          · rw [if_pos hm]
            refine ⟨?_, ?_⟩
            · unfold PoolInv at hp ⊢
              simp only [totalIncome_setMonth, totalAlloc_setMonth, totalIncome_ensure,
                totalAlloc_ensure, getMDList_ensure, incomeSum_append,
                incomeSum_eraseIdx md.transactions idx hidx]
              rw [hp, hinc, ← holdtx]
              unfold incomeVal
              ring
            · exact nodup_keys_setMonth _ _ _
                (nodup_keys_ensure _ _ (nodup_keys_setMonth _ _ _ hw))
          · rw [if_neg hm]
            refine ⟨?_, ?_⟩
            · unfold PoolInv at hp ⊢
              simp only [totalIncome_setMonth, totalAlloc_setMonth,
                incomeSum_set md.transactions idx updated hidx]
              rw [hp, hinc, ← holdtx]
              unfold incomeVal
              ring
            · exact nodup_keys_setMonth _ _ _ hw

theorem stateInv_of_reachableCore (m0 : Nat) (s : State) (h : ReachableCore m0 s) :
    StateInv s := by
  induction h with
  | refl => exact inv_init m0
  | tail _ hstep ih =>
      cases hstep with
      | alloc c v => exact inv_alloc _ c v ih
      | addTx date amount description ty categoryId confirm =>
          exact inv_addTx _ date amount description ty categoryId confirm ih
      | editTx txId newDate newAmount newType newDescription newCategoryId =>
          exact inv_editTx _ txId newDate newAmount newType newDescription newCategoryId ih
      | delTx txId month => exact inv_delTx _ txId month ih
      | payment today debtId amount => exact inv_payment _ today debtId amount ih
      | deact categoryId => exact inv_deact _ categoryId ih
      | addDebt name ob cb ir mp => exact inv_addDebt _ name ob cb ir mp ih
      | nav m => exact inv_nav _ m ih

/-- C1 (amended): for every state reachable from a fresh document by the
claim's mutating operations other than goal creation (allocation set,
transaction add/edit/delete, debt payment, category deactivation, plus
debt creation and month navigation), the pool equality
`readyToAssign = totalIncome - totalAlloc - totalPayments` holds; the
category-deletion refund term of the spec formula is identically zero
because deactivation refunds nothing.  Goal creation does not preserve
the equality (see the counterexample theorem). -/
theorem c1_pool_invariant_core (m0 : Nat) (s : State) (h : ReachableCore m0 s) :
    PoolInv s :=
  (stateInv_of_reachableCore m0 s h).1

theorem c1_pool_invariant_core_witness :
    PoolInv (addTransactionOp (initState 24310) ⟨24310, 5⟩ 100 "Paycheck"
      TxType.income none false) :=
  c1_pool_invariant_core 24310 _
    (Relation.ReflTransGen.single
      (CoreStep.addTx (initState 24310) ⟨24310, 5⟩ 100 "Paycheck" TxType.income none false))

/-- C2: in every state — in particular after every transaction add, edit
or delete — the derived figure `calculateCategoryAvailable(month, cat)`
equals `budgeted(month, cat)` minus the sum of the amounts of the expense
transactions of that month carrying that category id. -/
theorem c2_available_eq_budgeted_sub_activity :
    (∀ (s : State) (m : Nat) (c : Nat),
        calculateCategoryAvailable s m c = budgeted s m c - activitySpec s m c) ∧
    (∀ (s : State) (date : Date) (amount : Rat) (description : String) (ty : TxType)
        (categoryId : Option Nat) (confirm : Bool) (m : Nat) (c : Nat),
        calculateCategoryAvailable (addTransactionOp s date amount description ty categoryId confirm) m c
          = budgeted (addTransactionOp s date amount description ty categoryId confirm) m c
            - activitySpec (addTransactionOp s date amount description ty categoryId confirm) m c) ∧
    (∀ (s : State) (txId : Nat) (newDate : Date) (newAmount : Rat) (newType : TxType)
        (newDescription : String) (newCategoryId : Option Nat) (m : Nat) (c : Nat),
        calculateCategoryAvailable
            (editTransactionOp s txId newDate newAmount newType newDescription newCategoryId) m c
          = budgeted (editTransactionOp s txId newDate newAmount newType newDescription newCategoryId) m c
            - activitySpec (editTransactionOp s txId newDate newAmount newType newDescription newCategoryId) m c) ∧
    (∀ (s : State) (txId : Nat) (month m : Nat) (c : Nat),
        calculateCategoryAvailable (deleteTransactionOp s txId month) m c
          = budgeted (deleteTransactionOp s txId month) m c
            - activitySpec (deleteTransactionOp s txId month) m c) := by
  have key : ∀ (s : State) (m : Nat) (c : Nat),
      calculateCategoryAvailable s m c = budgeted s m c - activitySpec s m c := by
    intro s m c
    unfold calculateCategoryAvailable budgeted activitySpec calculateActivity
    have hfilter : ((getMDList s.budgets m).transactions.filter
        (fun t => t.categoryId == some c && t.type == TxType.expense)) =
        ((getMDList s.budgets m).transactions.filter
        (fun t => t.type == TxType.expense && t.categoryId == some c)) := by
      apply List.filter_congr
      intro t _
      exact Bool.and_comm _ _
    rw [hfilter]
  exact ⟨key, fun s date amount description ty categoryId confirm m c => key _ m c,
    fun s txId newDate newAmount newType newDescription newCategoryId m c => key _ m c,
    fun s txId month m c => key _ m c⟩

/-- C1 counterexample: the goal-creation handler is a reachable mutating
operation that breaks the claimed pool equality.  Creating a 1200 goal
due later in the current month budgets 1200 into the goal category
without decrementing `readyToAssign`, so the reached state has pool `0`
while the claimed formula yields `-1200`. -/
theorem c1_goal_creation_counterexample :
    Reachable 24310 (saveGoal (initState 24310) ⟨24310, 5⟩ "Vacation" "" ⟨24310, 15⟩ 1200) ∧
    ¬ PoolInv (saveGoal (initState 24310) ⟨24310, 5⟩ "Vacation" "" ⟨24310, 15⟩ 1200) := by
  constructor
  · exact Relation.ReflTransGen.single
      (Step.goal (initState 24310) ⟨24310, 5⟩ "Vacation" "" ⟨24310, 15⟩ 1200)
  · intro hinv
    unfold PoolInv saveGoal at hinv
    rw [if_neg (not_or.mpr ⟨by simp, by norm_num⟩), if_neg (by decide)] at hinv
    have hr1 : List.range 1 = [0] := by decide
    norm_num [initState, startOfMonth, differenceInCalendarMonths, hr1, goalAssign,
      ensureList, getMDList, findMonth, setMonth, allocSet, emptyMD, totalIncome, totalAlloc,
      totalPayments, allocSum, incomeSum] at hinv

/-! ## C3: the pool guard of the allocation setter -/

theorem updateCategoryAssigned_pool (s : State) (c : Nat) (v : Rat) :
    (updateCategoryAssigned s c v).readyToAssign =
      s.readyToAssign -
        (if s.readyToAssign < allocDelta s c v then 0 else allocDelta s c v) := by
  unfold updateCategoryAssigned allocDelta budgeted
  simp only [getMDList_ensure]
  by_cases hg : s.readyToAssign <
      v - assignedOf (getMDList s.budgets s.currentMonth).categories c
  · simp [hg]
  · simp [hg]

/-- C3: `updateCategoryAssigned` computes `delta = newBudgeted - oldBudgeted`;
a call with `delta > readyToAssign` is rejected leaving the pool, every
allocation and every transaction list unchanged; an accepted call sets the
allocation to `newBudgeted` and decrements the pool by exactly `delta`,
leaving the pool non-negative; over any sequence of calls the final pool is
the initial pool minus the sum of the deltas of the accepted calls. -/
theorem c3_allocation_pool_guard :
    (∀ (s : State) (c : Nat) (v : Rat),
        s.readyToAssign < allocDelta s c v →
          (updateCategoryAssigned s c v).readyToAssign = s.readyToAssign ∧
          (∀ (m : Nat) (c2 : Nat),
            budgeted (updateCategoryAssigned s c v) m c2 = budgeted s m c2) ∧
          (∀ m : Nat,
            transactionsOf (updateCategoryAssigned s c v) m = transactionsOf s m)) ∧
    (∀ (s : State) (c : Nat) (v : Rat),
        allocDelta s c v ≤ s.readyToAssign →
          budgeted (updateCategoryAssigned s c v) s.currentMonth c = v ∧
          (updateCategoryAssigned s c v).readyToAssign =
            s.readyToAssign - allocDelta s c v ∧
          0 ≤ (updateCategoryAssigned s c v).readyToAssign) ∧
    (∀ (s : State) (calls : List (Nat × Rat)),
        (runAllocs s calls).readyToAssign = s.readyToAssign - appliedDeltaSum calls s) := by
  refine ⟨?_, ?_, ?_⟩
  · intro s c v hg
    have hgg : s.readyToAssign <
        v - assignedOf (getMDList s.budgets s.currentMonth).categories c := by
      simpa [allocDelta, budgeted] using hg
    refine ⟨?_, ?_, ?_⟩
    · unfold updateCategoryAssigned
      simp only [getMDList_ensure]
      simp [hgg]
    · intro m c2
      unfold updateCategoryAssigned budgeted
      simp only [getMDList_ensure]
      simp [hgg, getMDList_ensure]
    · intro m
      unfold updateCategoryAssigned transactionsOf
      simp only [getMDList_ensure]
      simp [hgg, getMDList_ensure]
  · intro s c v hg
    have hgg : ¬ s.readyToAssign <
        v - assignedOf (getMDList s.budgets s.currentMonth).categories c := by
      refine not_lt.mpr ?_
      simpa [allocDelta, budgeted] using hg
    refine ⟨?_, ?_, ?_⟩
    · unfold updateCategoryAssigned budgeted
      simp only [getMDList_ensure]
      simp [hgg, getMDList_setMonth_self, assignedOf_allocSet_self]
    · unfold updateCategoryAssigned
      simp only [getMDList_ensure]
      simp [hgg, allocDelta, budgeted]
    · rw [updateCategoryAssigned_pool]
      rw [if_neg (not_lt.mpr hg)]
      linarith
  · intro s calls
    induction calls generalizing s with
    | nil => simp [runAllocs, appliedDeltaSum]
    | cons call rest ih =>
        obtain ⟨c, v⟩ := call
        have hrun : runAllocs s ((c, v) :: rest) =
            runAllocs (updateCategoryAssigned s c v) rest := by
          simp [runAllocs]
        rw [hrun, ih (updateCategoryAssigned s c v)]
        have hsum : appliedDeltaSum ((c, v) :: rest) s =
            (if s.readyToAssign < allocDelta s c v then 0 else allocDelta s c v)
              + appliedDeltaSum rest (updateCategoryAssigned s c v) := rfl
        rw [hsum, updateCategoryAssigned_pool]
        ring

theorem c3_allocation_pool_guard_witness :
    (updateCategoryAssigned (initState 24310) 1 5).readyToAssign
        = (initState 24310).readyToAssign ∧
    budgeted (updateCategoryAssigned (initState 24310) 1 0) 24310 1 = 0 ∧
    (runAllocs (initState 24310) [(1, 0)]).readyToAssign
        = (initState 24310).readyToAssign - appliedDeltaSum [(1, 0)] (initState 24310) := by
  refine ⟨?_, ?_, ?_⟩
  · refine (c3_allocation_pool_guard.1 (initState 24310) 1 5 ?_).1
    norm_num [allocDelta, budgeted, initState, getMDList, findMonth, assignedOf,
      allocLookup, emptyMD]
  · have h := (c3_allocation_pool_guard.2.1 (initState 24310) 1 0 ?_).1
    · exact h
    · norm_num [allocDelta, budgeted, initState, getMDList, findMonth, assignedOf,
        allocLookup, emptyMD]
  · exact c3_allocation_pool_guard.2.2 (initState 24310) [(1, 0)]

/-! ## C4: the duplicate-transaction gate -/

/-- A state whose open month is 24301 while month 24300 already holds a
transaction; used to exercise the duplicate gate across months. -/
def c4State : State :=
  { budgets := [(24300, ⟨[], [⟨0, ⟨24300, 10⟩, 50, "coffee", TxType.expense, some 1⟩]⟩)],
    debtList := [], goals := [],
    categories := [],
    currentMonth := 24301, readyToAssign := 0, nextId := 5 }

/-- C4 counterexample: a new transaction dated into month 24300 duplicates
an existing transaction of that target month exactly, yet the handler—
whose duplicate check reads the *currently open* month 24301—does not
flag it and inserts it anyway. -/
theorem c4_duplicate_gate_counterexample :
    ((transactionsOf c4State 24300).any (fun t =>
        t.date == (⟨24300, 10⟩ : Date) && t.amount == 50 && t.description == "coffee")) = true ∧
    isDuplicateTransaction c4State.budgets c4State.currentMonth
        ⟨5, ⟨24300, 10⟩, 50, "coffee", TxType.expense, some 1⟩ = false ∧
    transactionsOf (addTransactionOp c4State ⟨24300, 10⟩ 50 "coffee" TxType.expense (some 1) false) 24300
      = transactionsOf c4State 24300
        ++ [⟨5, ⟨24300, 10⟩, 50, "coffee", TxType.expense, some 1⟩] := by
  refine ⟨by decide, by decide, ?_⟩
  have hv1 : ¬ ((50 : Rat) ≤ 0 ∨ ("coffee" = "")) := by
    refine not_or.mpr ⟨by norm_num, by simp⟩
  have hv2 : ¬ (TxType.expense = TxType.expense ∧ (some 1 : Option Nat) = none) := by
    simp
  unfold addTransactionOp
  rw [if_neg hv1, if_neg hv2]
  have hdup : isDuplicateTransaction
      (ensureList (ensureList c4State.budgets 24300) c4State.currentMonth)
      c4State.currentMonth
      ⟨c4State.nextId, ⟨24300, 10⟩, 50, "coffee", TxType.expense, some 1⟩ = false := by
    decide
  rw [if_neg (by simp [hdup])]
  unfold transactionsOf
  rw [getMDList_setMonth_self]
  simp [getMDList_ensure, c4State]

/-- C4 (amended): the duplicate flag is raised iff a transaction of the
*currently open* month (`currentMonth`), not the month the date maps to,
has identical date, amount and description; a flagged transaction is not
inserted anywhere and leaves the pool untouched unless the confirmation
override is given, in which case it is appended to its target month. -/
theorem c4_duplicate_gate_currentMonth (s : State) (date : Date) (amount : Rat)
    (description : String) (ty : TxType) (categoryId : Option Nat)
    (hv1 : ¬ (amount ≤ 0 ∨ description = ""))
    (hv2 : ¬ (ty = TxType.expense ∧ categoryId = none)) :
    (isDuplicateTransaction s.budgets s.currentMonth
        ⟨s.nextId, date, amount, description, ty, categoryId⟩ = true
      ↔ ∃ t ∈ transactionsOf s s.currentMonth,
          t.date = date ∧ t.amount = amount ∧ t.description = description) ∧
    (isDuplicateTransaction s.budgets s.currentMonth
        ⟨s.nextId, date, amount, description, ty, categoryId⟩ = true →
      (∀ m : Nat,
        transactionsOf (addTransactionOp s date amount description ty categoryId false) m
          = transactionsOf s m) ∧
      (addTransactionOp s date amount description ty categoryId false).readyToAssign
        = s.readyToAssign) ∧
    (transactionsOf (addTransactionOp s date amount description ty categoryId true) date.ym
      = transactionsOf s date.ym
        ++ [⟨s.nextId, date, amount, description, ty, categoryId⟩]) := by
  have hdup_eq : ∀ b2 : List (Nat × MonthData),
      (∀ k, getMDList b2 k = getMDList s.budgets k) →
      isDuplicateTransaction b2 s.currentMonth
          ⟨s.nextId, date, amount, description, ty, categoryId⟩
        = isDuplicateTransaction s.budgets s.currentMonth
          ⟨s.nextId, date, amount, description, ty, categoryId⟩ := by
    intro b2 h
    unfold isDuplicateTransaction
    rw [h]
  refine ⟨?_, ?_, ?_⟩
  · unfold isDuplicateTransaction transactionsOf
    rw [List.any_eq_true]
    constructor
    · rintro ⟨t, ht, hp⟩
      simp only [Bool.and_eq_true, beq_iff_eq] at hp
      exact ⟨t, ht, hp.1.1, hp.1.2, hp.2⟩
    · rintro ⟨t, ht, h1, h2, h3⟩
      refine ⟨t, ht, ?_⟩
      simp [h1, h2, h3]
  · intro hdup
    unfold addTransactionOp
    rw [if_neg hv1, if_neg hv2]
    have hd2 : isDuplicateTransaction
        (ensureList (ensureList s.budgets date.ym) s.currentMonth) s.currentMonth
        ⟨s.nextId, date, amount, description, ty, categoryId⟩ = true := by
      rw [hdup_eq _ (fun k => by rw [getMDList_ensure, getMDList_ensure])]
      exact hdup
    rw [if_pos (by simp [hd2])]
    constructor
    · intro m
      unfold transactionsOf
      simp [getMDList_ensure]
    · rfl
  · unfold addTransactionOp
    rw [if_neg hv1, if_neg hv2]
    rw [if_neg (by simp)]
    unfold transactionsOf
    rw [getMDList_setMonth_self]
    simp [getMDList_ensure]

theorem c4_duplicate_gate_currentMonth_witness :
    (isDuplicateTransaction c4State.budgets c4State.currentMonth
        ⟨c4State.nextId, ⟨24301, 3⟩, 20, "tea", TxType.expense, some 1⟩ = true
      ↔ ∃ t ∈ transactionsOf c4State c4State.currentMonth,
          t.date = (⟨24301, 3⟩ : Date) ∧ t.amount = 20 ∧ t.description = "tea") ∧
    (isDuplicateTransaction c4State.budgets c4State.currentMonth
        ⟨c4State.nextId, ⟨24301, 3⟩, 20, "tea", TxType.expense, some 1⟩ = true →
      (∀ m : Nat,
        transactionsOf (addTransactionOp c4State ⟨24301, 3⟩ 20 "tea" TxType.expense (some 1) false) m
          = transactionsOf c4State m) ∧
      (addTransactionOp c4State ⟨24301, 3⟩ 20 "tea" TxType.expense (some 1) false).readyToAssign
        = c4State.readyToAssign) ∧
    (transactionsOf (addTransactionOp c4State ⟨24301, 3⟩ 20 "tea" TxType.expense (some 1) true) (24301 : Nat)
      = transactionsOf c4State 24301
        ++ [⟨c4State.nextId, ⟨24301, 3⟩, 20, "tea", TxType.expense, some 1⟩]) :=
  c4_duplicate_gate_currentMonth c4State ⟨24301, 3⟩ 20 "tea" TxType.expense (some 1)
    (not_or.mpr ⟨by norm_num, by simp⟩) (by simp)

/-! ## C5: recording a debt payment -/

/-- The source's find of the reserved category:
`categories.find(cat => cat.name === 'Debt Payments' && cat.isActive)`. -/
def debtPayCat (s : State) : Option (Nat × Category) :=
  s.categories.find? (fun p => p.2.name == "Debt Payments" && p.2.isActive)

theorem debtLookup_debtUpdate (ds : List Debt) (i : Nat) (d d1 : Debt)
    (h : debtLookup ds i = some d) (hid : d1.id = d.id) :
    debtLookup (debtUpdate ds i d1) i = some d1 := by
  induction ds with
  | nil => simp [debtLookup] at h
  | cons e rest ih =>
      by_cases he : (e.id == i) = true
      · have : debtLookup (e :: rest) i = some e := by
          simp [debtLookup, List.find?_cons_of_pos, he]
        rw [this] at h
        cases h
        have hd1 : (d1.id == i) = true := by
          rw [hid]; exact he
        simp [debtUpdate, he, debtLookup, List.find?_cons_of_pos, hd1]
      · have : debtLookup (e :: rest) i = debtLookup rest i := by
          simp only [Bool.not_eq_true] at he
          simp [debtLookup, List.find?_cons_of_neg, he]
        rw [this] at h
        simp only [Bool.not_eq_true] at he
        simp only [debtUpdate, he, Bool.false_eq_true, if_false]
        have : debtLookup (e :: debtUpdate rest i d1) i = debtLookup (debtUpdate rest i d1) i := by
          simp [debtLookup, List.find?_cons_of_neg, he]
        rw [this]
        exact ih h

/-- C5: `recordPayment(debtId, amount)` with `amount > 0` is rejected with
no state change when `amount > readyToAssign`; otherwise the debt's
balance becomes `max(0, currentBalance - amount)` (clamped on
overpayment), the full amount is appended to its payment history, the
pool drops by the full amount, and a linked expense transaction
`"Payment to <name>"` is appended to the current month, categorised
under the active "Debt Payments" category when one exists and under a
freshly created one (name "Debt Payments", parent "Fixed Expenses")
otherwise. -/
theorem c5_record_payment (s : State) (today : Date) (debtId : Nat) (amount : Rat)
    (ha : 0 < amount) :
    (s.readyToAssign < amount → recordPayment s today debtId amount = s) ∧
    (∀ d : Debt, amount ≤ s.readyToAssign → debtLookup s.debtList debtId = some d →
      (recordPayment s today debtId amount).readyToAssign = s.readyToAssign - amount ∧
      debtLookup (recordPayment s today debtId amount).debtList debtId
        = some { d with currentBalance := max 0 (d.currentBalance - amount),
                        paymentHistory := d.paymentHistory ++ [⟨today, amount⟩] } ∧
      (∀ cid cat, debtPayCat s = some (cid, cat) →
        (recordPayment s today debtId amount).categories = s.categories ∧
        transactionsOf (recordPayment s today debtId amount) s.currentMonth
          = transactionsOf s s.currentMonth
            ++ [⟨s.nextId, today, amount, "Payment to " ++ d.name, TxType.expense, some cid⟩]) ∧
      (debtPayCat s = none →
        (recordPayment s today debtId amount).categories
          = s.categories ++
              [(s.nextId, ⟨s.nextId, "Debt Payments", "Fixed Expenses", today, true⟩)] ∧
        transactionsOf (recordPayment s today debtId amount) s.currentMonth
          = transactionsOf s s.currentMonth
            ++ [⟨s.nextId + 1, today, amount, "Payment to " ++ d.name, TxType.expense,
                  some s.nextId⟩])) := by
  have hmax : ∀ x : Rat, (if x < 0 then (0 : Rat) else x) = max 0 x := by
    intro x
    by_cases hx : x < 0
    · rw [if_pos hx, max_eq_left (le_of_lt hx)]
    · rw [if_neg hx, max_eq_right (not_lt.mp hx)]
  constructor
  · intro hlt
    unfold recordPayment
    rw [if_neg (not_le.mpr ha), if_pos hlt]
  · intro d hle hfound
    unfold recordPayment
    rw [if_neg (not_le.mpr ha), if_neg (not_lt.mpr hle), hfound]
    refine ⟨rfl, ?_, ?_, ?_⟩
    · simp only [hmax]
      exact debtLookup_debtUpdate s.debtList debtId d _ hfound rfl
    · intro cid cat hcat
      unfold debtPayCat at hcat
      rw [hcat]
      refine ⟨rfl, ?_⟩
      unfold transactionsOf
      rw [getMDList_setMonth_self]
      simp [getMDList_ensure]
    · intro hnone
      unfold debtPayCat at hnone
      rw [hnone]
      refine ⟨rfl, ?_⟩
      unfold transactionsOf
      rw [getMDList_setMonth_self]
      simp [getMDList_ensure]

/-- The debt used by the C5 witness. -/
def c5Debt : Debt := ⟨7, "Visa", 1000, 30, 20, 25, []⟩

/-- The state used by the C5 witness: pool 100, one debt, no categories. -/
def c5State : State :=
  { budgets := [], debtList := [c5Debt], goals := [], categories := [],
    currentMonth := 24310, readyToAssign := 100, nextId := 9 }

theorem c5_record_payment_witness :
    (recordPayment c5State ⟨24310, 20⟩ 7 50).readyToAssign = c5State.readyToAssign - 50 ∧
    debtLookup (recordPayment c5State ⟨24310, 20⟩ 7 50).debtList 7
      = some { c5Debt with currentBalance := max 0 (c5Debt.currentBalance - 50),
                           paymentHistory := c5Debt.paymentHistory ++ [⟨⟨24310, 20⟩, 50⟩] } ∧
    (recordPayment c5State ⟨24310, 20⟩ 7 50).categories
      = c5State.categories ++
          [(c5State.nextId, ⟨c5State.nextId, "Debt Payments", "Fixed Expenses", ⟨24310, 20⟩, true⟩)] := by
  have h := (c5_record_payment c5State ⟨24310, 20⟩ 7 50 (by norm_num)).2 c5Debt
    (by norm_num [c5State]) (by decide)
  exact ⟨h.1, h.2.1, (h.2.2.2 (by decide)).1⟩

/-! ## C6: the goal-funding schedule -/

theorem goalAssign_self (catId : Nat) (mc : Rat) (b : List (Nat × MonthData)) (m : Nat) :
    assignedOf (getMDList (goalAssign catId mc b m) m).categories catId = mc := by
  unfold goalAssign
  rw [getMDList_setMonth_self]
  simp [assignedOf_allocSet_self]

theorem goalAssign_month_ne (catId : Nat) (mc : Rat) (b : List (Nat × MonthData))
    (m k : Nat) (h : k ≠ m) :
    getMDList (goalAssign catId mc b m) k = getMDList b k := by
  unfold goalAssign
  rw [getMDList_setMonth_ne _ _ _ _ h, getMDList_ensure]

theorem goalAssign_cat_ne (catId : Nat) (mc : Rat) (b : List (Nat × MonthData))
    (m k : Nat) (c : Nat) (h : c ≠ catId) :
    assignedOf (getMDList (goalAssign catId mc b m) k).categories c
      = assignedOf (getMDList b k).categories c := by
  by_cases hk : k = m
  · subst hk
    unfold goalAssign
    rw [getMDList_setMonth_self]
    simp [assignedOf_allocSet_ne _ _ _ _ h, getMDList_ensure]
  · rw [goalAssign_month_ne catId mc b m k hk]

theorem goalFold_cat_ne (catId : Nat) (mc : Rat) (start : Nat) (idxs : List Nat) :
    ∀ (b : List (Nat × MonthData)) (k : Nat) (c : Nat), c ≠ catId →
      assignedOf (getMDList
          (idxs.foldl (fun b i => goalAssign catId mc b (start + i)) b) k).categories c
        = assignedOf (getMDList b k).categories c := by
  induction idxs with
  | nil => intro b k c _; rfl
  | cons j rest ih =>
      intro b k c h
      simp only [List.foldl_cons]
      rw [ih (goalAssign catId mc b (start + j)) k c h]
      exact goalAssign_cat_ne catId mc b (start + j) k c h

theorem goalFold_month_out (catId : Nat) (mc : Rat) (start : Nat) (idxs : List Nat) :
    ∀ (b : List (Nat × MonthData)) (k : Nat), (∀ i ∈ idxs, start + i ≠ k) →
      getMDList (idxs.foldl (fun b i => goalAssign catId mc b (start + i)) b) k
        = getMDList b k := by
  induction idxs with
  | nil => intro b k _; rfl
  | cons j rest ih =>
      intro b k h
      simp only [List.foldl_cons]
      rw [ih (goalAssign catId mc b (start + j)) k
        (fun i hi => h i (List.mem_cons_of_mem j hi))]
      refine goalAssign_month_ne catId mc b (start + j) k ?_
      intro hk
      exact h j (List.mem_cons_self j rest) hk.symm

theorem goalFold_mem (catId : Nat) (mc : Rat) (start : Nat) (idxs : List Nat) :
    ∀ (b : List (Nat × MonthData)) (k : Nat), (∃ i ∈ idxs, start + i = k) →
      assignedOf (getMDList
          (idxs.foldl (fun b i => goalAssign catId mc b (start + i)) b) k).categories catId
        = mc := by
  induction idxs with
  | nil => rintro b k ⟨i, hi, _⟩; simp at hi
  | cons j rest ih =>
      rintro b k ⟨i, hi, hik⟩
      simp only [List.foldl_cons]
      by_cases hrest : ∃ i2 ∈ rest, start + i2 = k
      · exact ih (goalAssign catId mc b (start + j)) k hrest
      · have hj : start + j = k := by
          rcases List.mem_cons.mp hi with h | h
          · rw [← h]; exact hik
          · exact absurd ⟨i, h, hik⟩ hrest
        push_neg at hrest
        rw [goalFold_month_out catId mc start rest (goalAssign catId mc b (start + j)) k hrest]
        rw [← hj]
        exact goalAssign_self catId mc b (start + j)

theorem goalFold_transactions (catId : Nat) (mc : Rat) (start : Nat) (idxs : List Nat) :
    ∀ (b : List (Nat × MonthData)) (k : Nat),
      (getMDList (idxs.foldl (fun b i => goalAssign catId mc b (start + i)) b) k).transactions
        = (getMDList b k).transactions := by
  induction idxs with
  | nil => intro b k; rfl
  | cons j rest ih =>
      intro b k
      simp only [List.foldl_cons]
      rw [ih (goalAssign catId mc b (start + j)) k]
      by_cases hk : k = start + j
      · subst hk
        unfold goalAssign
        rw [getMDList_setMonth_self]
        simp [getMDList_ensure]
      · rw [goalAssign_month_ne catId mc b (start + j) k hk]

/-- C6: a valid goal creation (`totalAmount > 0`, due date after the start
of the current month) appends a goal whose `monthlyContribution` is
`totalAmount / monthsBetween` with
`monthsBetween = differenceInCalendarMonths(dueDate, startOfCurrentMonth) + 1`
(at least 1, both end months inclusive); it sets the backing category's
`budgeted` to the contribution in exactly the `monthsBetween` consecutive
months starting at the current month, touches no other category's
allocation, and leaves `readyToAssign` unchanged. -/
theorem c6_goal_schedule (s : State) (today : Date) (name description : String)
    (dueDate : Date) (totalAmount : Rat)
    (hv : ¬ (name = "" ∨ totalAmount ≤ 0))
    (hdate : dateLeB dueDate (startOfMonth today) = false)
    (hfresh : ∀ m : Nat,
      allocLookup (getMDList s.budgets m).categories (s.nextId + 1) = none) :
    (saveGoal s today name description dueDate totalAmount).goals
      = s.goals ++ [⟨s.nextId, name, description, dueDate, totalAmount,
          totalAmount /
            (((differenceInCalendarMonths dueDate (startOfMonth today) + 1).toNat : Nat) : Rat)⟩] ∧
    (∀ m : Nat,
      budgeted (saveGoal s today name description dueDate totalAmount) m (s.nextId + 1)
        = if today.ym ≤ m ∧
              m < today.ym + (differenceInCalendarMonths dueDate (startOfMonth today) + 1).toNat
          then totalAmount /
            (((differenceInCalendarMonths dueDate (startOfMonth today) + 1).toNat : Nat) : Rat)
          else 0) ∧
    (∀ (m : Nat) (c : Nat), c ≠ s.nextId + 1 →
      budgeted (saveGoal s today name description dueDate totalAmount) m c = budgeted s m c) ∧
    (saveGoal s today name description dueDate totalAmount).readyToAssign = s.readyToAssign ∧
    1 ≤ (differenceInCalendarMonths dueDate (startOfMonth today) + 1).toNat := by
  have hdiff : differenceInCalendarMonths dueDate (startOfMonth today)
      = (dueDate.ym : Int) - (today.ym : Int) := rfl
  have hmb : 1 ≤ (differenceInCalendarMonths dueDate (startOfMonth today) + 1).toNat := by
    unfold dateLeB at hdate
    simp only [Bool.or_eq_false_iff, Bool.and_eq_false_iff, decide_eq_false_iff_not,
      not_lt] at hdate
    have h1 : today.ym ≤ dueDate.ym := by
      simpa [startOfMonth] using hdate.1
    rw [hdiff]
    omega
  have hstart : (startOfMonth today).ym = today.ym := rfl
  unfold saveGoal
  rw [if_neg hv, if_neg (by simp [hdate])]
  refine ⟨rfl, ?_, ?_, rfl, hmb⟩
  · intro m
    unfold budgeted
    by_cases hm : today.ym ≤ m ∧
        m < today.ym + (differenceInCalendarMonths dueDate (startOfMonth today) + 1).toNat
    · obtain ⟨hm1, hm2⟩ := hm
      rw [if_pos ⟨hm1, hm2⟩]
      refine goalFold_mem (s.nextId + 1)
        (totalAmount /
          (((differenceInCalendarMonths dueDate (startOfMonth today) + 1).toNat : Nat) : Rat))
        (startOfMonth today).ym
        (List.range (differenceInCalendarMonths dueDate (startOfMonth today) + 1).toNat)
        s.budgets m ⟨m - today.ym, List.mem_range.mpr ?_, ?_⟩
      · omega
      · rw [hstart]
        omega
    · rw [if_neg hm]
      rw [goalFold_month_out (s.nextId + 1)
        (totalAmount /
          (((differenceInCalendarMonths dueDate (startOfMonth today) + 1).toNat : Nat) : Rat))
        (startOfMonth today).ym
        (List.range (differenceInCalendarMonths dueDate (startOfMonth today) + 1).toNat)
        s.budgets m ?_]
      · simp [assignedOf, hfresh m]
      · intro i hi
        rw [List.mem_range] at hi
        rw [hstart]
        rw [not_and_or, not_lt] at hm
        rcases hm with hm | hm
      
        · rw [not_le] at hm
          omega
        · omega
  · intro m c hc
    unfold budgeted
    exact goalFold_cat_ne (s.nextId + 1) _ (startOfMonth today).ym _ s.budgets m c hc

theorem c6_goal_schedule_witness :
    budgeted (saveGoal (initState 24310) ⟨24310, 5⟩ "Car" "" ⟨24321, 15⟩ 1200) 24315 1 = 100 ∧
    budgeted (saveGoal (initState 24310) ⟨24310, 5⟩ "Car" "" ⟨24321, 15⟩ 1200) 24322 1 = 0 ∧
    (saveGoal (initState 24310) ⟨24310, 5⟩ "Car" "" ⟨24321, 15⟩ 1200).readyToAssign
      = (initState 24310).readyToAssign := by
  have h := c6_goal_schedule (initState 24310) ⟨24310, 5⟩ "Car" "" ⟨24321, 15⟩ 1200
    (not_or.mpr ⟨by simp, by norm_num⟩) (by decide) (fun m => rfl)
  simp only [initState, Nat.zero_add] at h ⊢
  refine ⟨?_, ?_, h.2.2.2.1⟩
  · have h2 := h.2.1 24315
    rw [h2, if_pos (by decide)]
    norm_num [differenceInCalendarMonths, startOfMonth]
    show (1200 : Rat) / ((12 : Nat) : Rat) = 100
    norm_num
  · have h2 := h.2.1 24322
    rw [h2, if_neg (by decide)]

/-! ## C7: editing a transaction -/

/-- C7: editing an existing transaction (id found in month `oldMonth`)
keeps its id; if the new date maps to a different month the record is
removed from the old month's list and appended to the new month's list,
otherwise it is updated in place; the pool changes by exactly the new
income amount minus the old income amount, so an edit between expense
transactions never changes the pool. -/
theorem c7_edit_transaction (s : State) (txId : Nat) (newDate : Date) (newAmount : Rat)
    (newType : TxType) (newDescription : String) (newCategoryId : Option Nat)
    (oldMonth idx : Nat) (oldTx updated : Transaction)
    (hw : WFMonths s)
    (hv1 : ¬ (newAmount ≤ 0 ∨ newDescription = ""))
    (hv2 : ¬ (newType = TxType.expense ∧ newCategoryId = none))
    (hf : findTxMonth s.budgets txId = some oldMonth)
    (hidx : idx = (getMDList s.budgets oldMonth).transactions.findIdx (fun t => t.id == txId))
    (holdTx : oldTx = ((getMDList s.budgets oldMonth).transactions.get? idx).getD defaultTx)
    (hupd : updated = { oldTx with
                        date := newDate, amount := newAmount, type := newType,
                        description := newDescription, categoryId := newCategoryId }) :
    updated.id = txId ∧
    (newDate.ym ≠ oldMonth →
      transactionsOf (editTransactionOp s txId newDate newAmount newType newDescription newCategoryId) oldMonth
        = (transactionsOf s oldMonth).eraseIdx idx ∧
      transactionsOf (editTransactionOp s txId newDate newAmount newType newDescription newCategoryId) newDate.ym
        = transactionsOf s newDate.ym ++ [updated]) ∧
    (newDate.ym = oldMonth →
      transactionsOf (editTransactionOp s txId newDate newAmount newType newDescription newCategoryId) oldMonth
        = (transactionsOf s oldMonth).set idx updated) ∧
    ((editTransactionOp s txId newDate newAmount newType newDescription newCategoryId).readyToAssign
      = s.readyToAssign
        - (if oldTx.type = TxType.income then oldTx.amount else 0)
        + (if newType = TxType.income then newAmount else 0)) ∧
    (oldTx.type = TxType.expense → newType = TxType.expense →
      (editTransactionOp s txId newDate newAmount newType newDescription newCategoryId).readyToAssign
        = s.readyToAssign) := by
  have hany := findTxMonth_any s.budgets txId oldMonth hw hf
  have hid : oldTx.id = txId := by
    rcases get?_findIdx_of_any _ _ hany with ⟨x, hx, hpx⟩
    rw [holdTx, hidx, hx]
    simpa using hpx
  have hpool : (editTransactionOp s txId newDate newAmount newType newDescription newCategoryId).readyToAssign
      = s.readyToAssign
        - (if oldTx.type = TxType.income then oldTx.amount else 0)
        + (if newType = TxType.income then newAmount else 0) := by
    unfold editTransactionOp
    rw [if_neg hv1, if_neg hv2, hf]
    dsimp only
    rw [← hidx, ← holdTx]
    simp only [beq_iff_eq]
  refine ⟨by rw [hupd]; exact hid, ?_, ?_, hpool, ?_⟩
  · intro hm
    unfold editTransactionOp transactionsOf
    rw [if_neg hv1, if_neg hv2, hf]
    dsimp only
    rw [if_pos hm]
    constructor
    · rw [getMDList_setMonth_ne _ _ _ _ (Ne.symm hm), getMDList_ensure,
        getMDList_setMonth_self]
      simp only [← hidx]
    · rw [getMDList_setMonth_self]
      rw [getMDList_ensure, getMDList_setMonth_ne _ _ _ _ hm]
      simp only [← hidx, ← holdTx, ← hupd]
  · intro hm
    unfold editTransactionOp transactionsOf
    rw [if_neg hv1, if_neg hv2, hf]
    dsimp only
    rw [if_neg (by simpa using hm)]
    rw [getMDList_setMonth_self]
    simp only [← hidx, ← holdTx, ← hupd]
  · intro ho hn
    rw [hpool, ho, hn]
    simp

/-- The state used by the C7 witness: one income transaction in month
24300, which is also the open month. -/
def c7State : State :=
  { budgets := [(24300, ⟨[], [⟨3, ⟨24300, 10⟩, 40, "x", TxType.income, none⟩]⟩)],
    debtList := [], goals := [], categories := [],
    currentMonth := 24300, readyToAssign := 40, nextId := 4 }

theorem c7_edit_transaction_witness :
    (⟨3, ⟨24301, 2⟩, 25, "y", TxType.income, none⟩ : Transaction).id = 3 ∧
    transactionsOf (editTransactionOp c7State 3 ⟨24301, 2⟩ 25 TxType.income "y" none) 24301
      = transactionsOf c7State 24301 ++ [⟨3, ⟨24301, 2⟩, 25, "y", TxType.income, none⟩] ∧
    (editTransactionOp c7State 3 ⟨24301, 2⟩ 25 TxType.income "y" none).readyToAssign
      = c7State.readyToAssign
        - (if (⟨3, ⟨24300, 10⟩, 40, "x", TxType.income, none⟩ : Transaction).type = TxType.income
            then (⟨3, ⟨24300, 10⟩, 40, "x", TxType.income, none⟩ : Transaction).amount else 0)
        + (if TxType.income = TxType.income then (25 : Rat) else 0) := by
  have h := c7_edit_transaction c7State 3 ⟨24301, 2⟩ 25 TxType.income "y" none
    24300 0 ⟨3, ⟨24300, 10⟩, 40, "x", TxType.income, none⟩
    ⟨3, ⟨24301, 2⟩, 25, "y", TxType.income, none⟩
    (by decide) (not_or.mpr ⟨by norm_num, by simp⟩) (by simp)
    (by decide) (by decide) (by decide) (by decide)
  exact ⟨h.1, (h.2.1 (by decide)).2, h.2.2.2.1⟩

/-! ## C8: deleting a transaction -/

/-- C8: deleting an existing transaction (found at `idx` in its month's
list) removes it from that list; if it was an Income transaction the pool
drops by exactly its amount, and if it was an Expense transaction the
pool is unchanged. -/
theorem c8_delete_transaction (s : State) (txId month idx : Nat) (md : MonthData)
    (t : Transaction)
    (hf : findMonth s.budgets month = some md)
    (hidx : idx = md.transactions.findIdx (fun x => x.id == txId))
    (hlt : idx < md.transactions.length)
    (ht : t = (md.transactions.get? idx).getD defaultTx) :
    transactionsOf (deleteTransactionOp s txId month) month
      = md.transactions.eraseIdx idx ∧
    (t.type = TxType.income →
      (deleteTransactionOp s txId month).readyToAssign = s.readyToAssign - t.amount) ∧
    (t.type = TxType.expense →
      (deleteTransactionOp s txId month).readyToAssign = s.readyToAssign) := by
  have hop : deleteTransactionOp s txId month =
      { s with
        budgets := setMonth s.budgets month
          { md with transactions :=
              md.transactions.eraseIdx (md.transactions.findIdx (fun x => x.id == txId)) },
        readyToAssign :=
          if ((md.transactions.get?
                (md.transactions.findIdx (fun x => x.id == txId))).getD defaultTx).type
              == TxType.income
          then s.readyToAssign -
            ((md.transactions.get?
                (md.transactions.findIdx (fun x => x.id == txId))).getD defaultTx).amount
          else s.readyToAssign } := by
    unfold deleteTransactionOp
    rw [hf]
    dsimp only
    rw [if_pos (hidx ▸ hlt)]
  rw [hop]
  refine ⟨?_, ?_, ?_⟩
  · unfold transactionsOf
    rw [getMDList_setMonth_self]
    rw [← hidx]
  · intro hty
    have : (((md.transactions.get?
        (md.transactions.findIdx (fun x => x.id == txId))).getD defaultTx).type
          == TxType.income) = true := by
      rw [← hidx, ← ht, hty]
      rfl
    simp only [this, if_true]
    rw [← hidx, ← ht]
  · intro hty
    have : (((md.transactions.get?
        (md.transactions.findIdx (fun x => x.id == txId))).getD defaultTx).type
          == TxType.income) = false := by
      rw [← hidx, ← ht, hty]
      rfl
    simp only [this, Bool.false_eq_true, if_false]

/-- The state used by the C8 witness: an income and an expense
transaction in month 24300. -/
def c8State : State :=
  { budgets := [(24300, ⟨[],
      [⟨3, ⟨24300, 10⟩, 40, "x", TxType.income, none⟩,
       ⟨4, ⟨24300, 11⟩, 7, "w", TxType.expense, some 1⟩]⟩)],
    debtList := [], goals := [], categories := [],
    currentMonth := 24300, readyToAssign := 40, nextId := 5 }

theorem c8_delete_transaction_witness :
    ((deleteTransactionOp c8State 3 24300).readyToAssign
      = c8State.readyToAssign
        - (⟨3, ⟨24300, 10⟩, 40, "x", TxType.income, none⟩ : Transaction).amount) ∧
    ((deleteTransactionOp c8State 4 24300).readyToAssign = c8State.readyToAssign) := by
  constructor
  · exact (c8_delete_transaction c8State 3 24300 0
      ⟨[], [⟨3, ⟨24300, 10⟩, 40, "x", TxType.income, none⟩,
            ⟨4, ⟨24300, 11⟩, 7, "w", TxType.expense, some 1⟩]⟩
      ⟨3, ⟨24300, 10⟩, 40, "x", TxType.income, none⟩
      (by decide) (by decide) (by decide) (by decide)).2.1 rfl
  · exact (c8_delete_transaction c8State 4 24300 1
      ⟨[], [⟨3, ⟨24300, 10⟩, 40, "x", TxType.income, none⟩,
            ⟨4, ⟨24300, 11⟩, 7, "w", TxType.expense, some 1⟩]⟩
      ⟨4, ⟨24300, 11⟩, 7, "w", TxType.expense, some 1⟩
      (by decide) (by decide) (by decide) (by decide)).2.2 rfl

/-! ## C10: income deletion is not pool-guarded -/

/-- The state reached from a fresh document by: add a 100 income
transaction, allocate the full 100 to a category, then delete the income
transaction. -/
def c10End : State :=
  deleteTransactionOp
    (updateCategoryAssigned
      (addTransactionOp (initState 24310) ⟨24310, 5⟩ 100 "pay" TxType.income none false)
      1 100)
    0 24310

/-- C10: `handleDeleteTransaction` performs no pool-sufficiency check:
deleting an income transaction always succeeds and decrements the pool
by its amount, and the reachable state «income added, fully allocated,
income deleted» has a strictly negative `readyToAssign`. -/
theorem c10_delete_income_unguarded :
    (∀ (s : State) (txId month idx : Nat) (md : MonthData) (t : Transaction),
        findMonth s.budgets month = some md →
        idx = md.transactions.findIdx (fun x => x.id == txId) →
        idx < md.transactions.length →
        t = (md.transactions.get? idx).getD defaultTx →
        t.type = TxType.income →
        (deleteTransactionOp s txId month).readyToAssign = s.readyToAssign - t.amount) ∧
    Reachable 24310 c10End ∧ c10End.readyToAssign < 0 := by
  refine ⟨?_, ?_, ?_⟩
  · intro s txId month idx md t hf hidx hlt ht hty
    unfold deleteTransactionOp
    rw [hf]
    dsimp only
    rw [if_pos (hidx ▸ hlt)]
    have : (((md.transactions.get?
        (md.transactions.findIdx (fun x => x.id == txId))).getD defaultTx).type
          == TxType.income) = true := by
      rw [← hidx, ← ht, hty]
      rfl
    simp only [this, if_true]
    rw [← hidx, ← ht]
  · exact Relation.ReflTransGen.tail
      (Relation.ReflTransGen.tail
        (Relation.ReflTransGen.single
          (Step.addTx (initState 24310) ⟨24310, 5⟩ 100 "pay" TxType.income none false))
        (Step.alloc _ 1 100))
      (Step.delTx _ 0 24310)
  · have h1 : addTransactionOp (initState 24310) ⟨24310, 5⟩ 100 "pay" TxType.income none false
        = { budgets := [(24310, ⟨[], [⟨0, ⟨24310, 5⟩, 100, "pay", TxType.income, none⟩]⟩)],
            debtList := [], goals := [], categories := [], currentMonth := 24310,
            readyToAssign := 100, nextId := 1 } := by
      unfold addTransactionOp
      rw [if_neg (not_or.mpr ⟨by norm_num, by simp⟩), if_neg (by simp), if_neg (by decide)]
      norm_num [initState, ensureList, getMDList, findMonth, setMonth, emptyMD,
        updateReadyToAssign]
    have h2 : updateCategoryAssigned
        ({ budgets := [(24310, ⟨[], [⟨0, ⟨24310, 5⟩, 100, "pay", TxType.income, none⟩]⟩)],
           debtList := [], goals := [], categories := [], currentMonth := 24310,
           readyToAssign := 100, nextId := 1 } : State) 1 100
        = { budgets := [(24310, ⟨[(1, ⟨100⟩)],
              [⟨0, ⟨24310, 5⟩, 100, "pay", TxType.income, none⟩]⟩)],
            debtList := [], goals := [], categories := [], currentMonth := 24310,
            readyToAssign := 0, nextId := 1 } := by
      unfold updateCategoryAssigned
      rw [if_neg (by norm_num [ensureList, getMDList, findMonth, assignedOf, allocLookup,
        emptyMD, List.find?])]
      norm_num [ensureList, getMDList, findMonth, setMonth, allocSet, assignedOf,
        allocLookup, emptyMD, List.find?]
    show (deleteTransactionOp
        (updateCategoryAssigned
          (addTransactionOp (initState 24310) ⟨24310, 5⟩ 100 "pay" TxType.income none false)
          1 100)
        0 24310).readyToAssign < 0
    rw [h1, h2]
    unfold deleteTransactionOp
    rw [show findMonth
        ({ budgets := [(24310, ⟨[(1, ⟨100⟩)],
              [⟨0, ⟨24310, 5⟩, 100, "pay", TxType.income, none⟩]⟩)],
            debtList := [], goals := [], categories := [], currentMonth := 24310,
            readyToAssign := 0, nextId := 1 } : State).budgets 24310
        = some ⟨[(1, ⟨100⟩)], [⟨0, ⟨24310, 5⟩, 100, "pay", TxType.income, none⟩]⟩
      from by decide]
    dsimp only
    rw [if_pos (by decide)]
    norm_num [List.findIdx, List.findIdx_cons]
    decide

/-- The state used by the C10 witness: the 100 income fully allocated,
pool already at zero. -/
def c10State : State :=
  { budgets := [(24310, ⟨[(1, ⟨100⟩)],
      [⟨0, ⟨24310, 5⟩, 100, "pay", TxType.income, none⟩]⟩)],
    debtList := [], goals := [], categories := [], currentMonth := 24310,
    readyToAssign := 0, nextId := 1 }

theorem c10_delete_income_unguarded_witness :
    (deleteTransactionOp c10State 0 24310).readyToAssign
      = c10State.readyToAssign
        - (⟨0, ⟨24310, 5⟩, 100, "pay", TxType.income, none⟩ : Transaction).amount :=
  c10_delete_income_unguarded.1 c10State 0 24310 0
    ⟨[(1, ⟨100⟩)], [⟨0, ⟨24310, 5⟩, 100, "pay", TxType.income, none⟩]⟩
    ⟨0, ⟨24310, 5⟩, 100, "pay", TxType.income, none⟩
    (by decide) (by decide) (by decide) (by decide) rfl

/-! ## C9: copying categories forward -/

theorem allocLookup_append_single_ne (l : List (Nat × Allocation)) (k cid : Nat)
    (a : Allocation) (h : k ≠ cid) :
    allocLookup (l ++ [(k, a)]) cid = allocLookup l cid := by
  rw [allocLookup_append]
  cases hl : allocLookup l cid with
  | some v => rfl
  | none =>
      simp [Option.orElse, allocLookup_cons, h, allocLookup]

theorem allocLookup_append_single_self (l : List (Nat × Allocation)) (k : Nat)
    (a : Allocation) (h : allocLookup l k = none) :
    allocLookup (l ++ [(k, a)]) k = some a := by
  rw [allocLookup_append, h]
  simp [Option.orElse, allocLookup_cons]

theorem copyFold_preserves (cs : List (Nat × Category)) :
    ∀ (acc : List (Nat × Allocation) × Nat) (cid : Nat) (a : Allocation),
      allocLookup acc.1 cid = some a →
      allocLookup (cs.foldl copyStep acc).1 cid = some a := by
  induction cs with
  | nil => intro acc cid a h; exact h
  | cons p rest ih =>
      intro acc cid a h
      simp only [List.foldl_cons]
      refine ih (copyStep acc p) cid a ?_
      unfold copyStep
      by_cases hc : (p.2.isActive && (allocLookup acc.1 p.1).isNone) = true
      · rw [if_pos hc]
        by_cases hk : p.1 = cid
        · subst hk
          rw [Bool.and_eq_true] at hc
          rw [h] at hc
          simp at hc
        · rw [allocLookup_append_single_ne acc.1 p.1 cid ⟨0⟩ hk]
          exact h
      · rw [if_neg hc]
        exact h

theorem copyFold_untouched (cs : List (Nat × Category)) :
    ∀ (acc : List (Nat × Allocation) × Nat) (cid : Nat),
      (∀ cat : Category, (cid, cat) ∈ cs → cat.isActive = false) →
      allocLookup (cs.foldl copyStep acc).1 cid = allocLookup acc.1 cid := by
  induction cs with
  | nil => intro acc cid _; rfl
  | cons p rest ih =>
      intro acc cid h
      simp only [List.foldl_cons]
      rw [ih (copyStep acc p) cid (fun cat hm => h cat (List.mem_cons_of_mem p hm))]
      unfold copyStep
      by_cases hc : (p.2.isActive && (allocLookup acc.1 p.1).isNone) = true
      · rw [if_pos hc]
        have hk : p.1 ≠ cid := by
          intro hkk
          have hp : (cid, p.2) ∈ p :: rest := by
            rw [← hkk]
            exact List.mem_cons_self p rest
          have := h p.2 hp
          rw [Bool.and_eq_true] at hc
          rw [this] at hc
          simp at hc
        exact allocLookup_append_single_ne acc.1 p.1 cid ⟨0⟩ hk
      · rw [if_neg hc]

theorem copyFold_creates (cs : List (Nat × Category)) :
    ∀ (acc : List (Nat × Allocation) × Nat) (cid : Nat) (cat : Category),
      ((cs.map Prod.fst).Nodup) →
      (cid, cat) ∈ cs → cat.isActive = true →
      allocLookup acc.1 cid = none →
      allocLookup (cs.foldl copyStep acc).1 cid = some ⟨0⟩ := by
  induction cs with
  | nil => intro acc cid cat _ hm; simp at hm
  | cons p rest ih =>
      intro acc cid cat hnd hm hact hnone
      simp only [List.map_cons, List.nodup_cons] at hnd
      simp only [List.foldl_cons]
      rcases List.mem_cons.mp hm with heq | htail
      · subst heq
        refine copyFold_preserves rest (copyStep acc (cid, cat)) cid ⟨0⟩ ?_
        unfold copyStep
        rw [if_pos (by simp [hact, hnone])]
        exact allocLookup_append_single_self acc.1 cid ⟨0⟩ hnone
      · have hk : p.1 ≠ cid := by
          intro hkk
          exact hnd.1 (List.mem_map.mpr ⟨(cid, cat), htail, by rw [hkk]⟩)
        refine ih (copyStep acc p) cid cat hnd.2 htail hact ?_
        unfold copyStep
        by_cases hc : (p.2.isActive && (allocLookup acc.1 p.1).isNone) = true
        · rw [if_pos hc]
          rw [allocLookup_append_single_ne acc.1 p.1 cid ⟨0⟩ hk]
          exact hnone
        · rw [if_neg hc]
          exact hnone

theorem copyFold_count (cs : List (Nat × Category)) :
    ∀ (acc : List (Nat × Allocation) × Nat) (cats0 : List (Nat × Allocation)),
      ((cs.map Prod.fst).Nodup) →
      (∀ k, k ∈ cs.map Prod.fst → allocLookup acc.1 k = allocLookup cats0 k) →
      (cs.foldl copyStep acc).2 =
        acc.2 + (cs.filter
          (fun p => p.2.isActive && (allocLookup cats0 p.1).isNone)).length := by
  induction cs with
  | nil => intro acc cats0 _ _; simp
  | cons p rest ih =>
      intro acc cats0 hnd hinv
      simp only [List.map_cons, List.nodup_cons] at hnd
      have hp : allocLookup acc.1 p.1 = allocLookup cats0 p.1 :=
        hinv p.1 (List.mem_map.mpr ⟨p, List.mem_cons_self p rest, rfl⟩)
      simp only [List.foldl_cons]
      by_cases hc : (p.2.isActive && (allocLookup cats0 p.1).isNone) = true
      · have hstep : copyStep acc p
            = (acc.1 ++ [(p.1, ({ assigned := 0 } : Allocation))], acc.2 + 1) := by
          unfold copyStep
          rw [if_pos (by rw [hp]; exact hc)]
        have hinv2 : ∀ k ∈ List.map Prod.fst rest,
            allocLookup (acc.1 ++ [(p.1, ({ assigned := 0 } : Allocation))]) k
              = allocLookup cats0 k := by
          intro k hk
          have hkne : p.1 ≠ k := by
            intro hkk
            rw [hkk] at hnd
            exact hnd.1 hk
          rw [allocLookup_append_single_ne acc.1 p.1 k _ hkne]
          exact hinv k (List.mem_cons_of_mem _ hk)
        rw [hstep,
          ih (acc.1 ++ [(p.1, ({ assigned := 0 } : Allocation))], acc.2 + 1) cats0 hnd.2 hinv2]
        rw [List.filter_cons, if_pos (by simpa using hc)]
        simp [Nat.add_comm, Nat.add_assoc, Nat.add_left_comm]
      · have hstep : copyStep acc p = acc := by
          unfold copyStep
          rw [if_neg (by rw [hp]; exact hc)]
        rw [hstep, ih acc cats0 hnd.2 (fun k hk => hinv k (List.mem_cons_of_mem _ hk))]
        rw [List.filter_cons, if_neg (by simpa using hc)]

/-- C9: `copyCategoriesForward` creates a `budgeted = 0` allocation entry
in the next month for exactly the active categories lacking one there,
never overwrites an existing entry, leaves every month's transactions,
every other month and the pool unchanged, and reports the number of
entries created. -/
theorem c9_copy_categories_forward (s : State)
    (hnd : (s.categories.map Prod.fst).Nodup) :
    (∀ (cid : Nat) (cat : Category), (cid, cat) ∈ s.categories → cat.isActive = true →
      allocLookup (getMDList s.budgets (s.currentMonth + 1)).categories cid = none →
      allocLookup
          (getMDList ((copyCategoriesForwardOp s).1).budgets (s.currentMonth + 1)).categories cid
        = some ⟨0⟩) ∧
    (∀ (cid : Nat) (a : Allocation),
      allocLookup (getMDList s.budgets (s.currentMonth + 1)).categories cid = some a →
      allocLookup
          (getMDList ((copyCategoriesForwardOp s).1).budgets (s.currentMonth + 1)).categories cid
        = some a) ∧
    (∀ cid : Nat, (∀ cat : Category, (cid, cat) ∈ s.categories → cat.isActive = false) →
      allocLookup
          (getMDList ((copyCategoriesForwardOp s).1).budgets (s.currentMonth + 1)).categories cid
        = allocLookup (getMDList s.budgets (s.currentMonth + 1)).categories cid) ∧
    (∀ m : Nat, transactionsOf (copyCategoriesForwardOp s).1 m = transactionsOf s m) ∧
    (∀ m : Nat, m ≠ s.currentMonth + 1 →
      getMDList ((copyCategoriesForwardOp s).1).budgets m = getMDList s.budgets m) ∧
    ((copyCategoriesForwardOp s).1).readyToAssign = s.readyToAssign ∧
    (copyCategoriesForwardOp s).2
      = (s.categories.filter (fun p => p.2.isActive &&
          (allocLookup (getMDList s.budgets (s.currentMonth + 1)).categories p.1).isNone)).length := by
  have hmd : getMDList (ensureList (ensureList s.budgets s.currentMonth) (s.currentMonth + 1))
      (s.currentMonth + 1) = getMDList s.budgets (s.currentMonth + 1) := by
    rw [getMDList_ensure, getMDList_ensure]
  have hread : ∀ k : Nat, getMDList ((copyCategoriesForwardOp s).1).budgets k
      = if k = s.currentMonth + 1 then
          { getMDList s.budgets (s.currentMonth + 1) with
            categories := (s.categories.foldl copyStep
              ((getMDList s.budgets (s.currentMonth + 1)).categories, 0)).1 }
        else getMDList s.budgets k := by
    intro k
    unfold copyCategoriesForwardOp
    dsimp only
    by_cases hk : k = s.currentMonth + 1
    · subst hk
      rw [getMDList_setMonth_self, if_pos rfl, hmd]
    · rw [getMDList_setMonth_ne _ _ _ _ hk, getMDList_ensure, getMDList_ensure, if_neg hk]
  have hcount : (copyCategoriesForwardOp s).2
      = (s.categories.foldl copyStep
          ((getMDList s.budgets (s.currentMonth + 1)).categories, 0)).2 := by
    unfold copyCategoriesForwardOp
    dsimp only
    rw [hmd]
  refine ⟨?_, ?_, ?_, ?_, ?_, ?_, ?_⟩
  · intro cid cat hm hact hnone
    rw [hread (s.currentMonth + 1), if_pos rfl]
    exact copyFold_creates s.categories _ cid cat hnd hm hact hnone
  · intro cid a ha
    rw [hread (s.currentMonth + 1), if_pos rfl]
    exact copyFold_preserves s.categories _ cid a ha
  · intro cid hinactive
    rw [hread (s.currentMonth + 1), if_pos rfl]
    exact copyFold_untouched s.categories _ cid hinactive
  · intro m
    unfold transactionsOf
    rw [hread m]
    by_cases hk : m = s.currentMonth + 1
    · rw [if_pos hk, hk]
    · rw [if_neg hk]
  · intro m hm
    rw [hread m, if_neg hm]
  · unfold copyCategoriesForwardOp
    dsimp only
  · rw [hcount]
    rw [copyFold_count s.categories _ _ hnd (fun k _ => rfl)]
    simp

/-- The state used by the C9 witness: next month 24300 already budgets
category 1; category 2 is active without an entry, category 3 inactive. -/
def c9State : State :=
  { budgets := [(24300, ⟨[(1, ⟨50⟩)], []⟩)],
    debtList := [], goals := [],
    categories := [(1, ⟨1, "Rent", "", ⟨24290, 1⟩, true⟩),
                   (2, ⟨2, "Fun", "", ⟨24290, 1⟩, true⟩),
                   (3, ⟨3, "Old", "", ⟨24290, 1⟩, false⟩)],
    currentMonth := 24299, readyToAssign := 12, nextId := 4 }

theorem c9_copy_categories_forward_witness :
    allocLookup
        (getMDList ((copyCategoriesForwardOp c9State).1).budgets 24300).categories 2
      = some ⟨0⟩ ∧
    allocLookup
        (getMDList ((copyCategoriesForwardOp c9State).1).budgets 24300).categories 1
      = some ⟨50⟩ ∧
    ((copyCategoriesForwardOp c9State).1).readyToAssign = c9State.readyToAssign ∧
    (copyCategoriesForwardOp c9State).2 = 1 := by
  have h := c9_copy_categories_forward c9State (by decide)
  refine ⟨?_, ?_, h.2.2.2.2.2.1, ?_⟩
  · exact h.1 2 ⟨2, "Fun", "", ⟨24290, 1⟩, true⟩ (by decide) rfl (by decide)
  · exact h.2.1 1 ⟨50⟩ (by decide)
  · rw [h.2.2.2.2.2.2]
    decide
